import Mathlib

/-!
Verification of the session-wide resource manager of transmission
(`src/libtransmission/fdlimit.c`): the bounded file-handle cache with
least-recently-used eviction, the preallocation strategies, the one-time
descriptor-limit negotiation, and the socket admission controller.

The C code is shallowly embedded: every stateful C function becomes a pure
Lean function from an explicit state (plus an environment record describing
the outcomes of the OS calls the function makes) to a result record that
carries the updated state together with observable events (OS opens/closes,
error codes, the modeled on-disk file size).  Machine integers are modeled
by `Int`/`Nat`; the `TR_BAD_SYS_FILE` sentinel is `-1`, as on POSIX.
-/

namespace Fdlimit

/-- `TR_BAD_SYS_FILE`: the invalid-descriptor sentinel (POSIX: -1). -/
def TR_BAD_SYS_FILE : Int := -1

/-- `tr_preallocation_mode` from transmission.h. -/
inductive PreallocMode where
  | TR_PREALLOCATE_NONE
  | TR_PREALLOCATE_SPARSE
  | TR_PREALLOCATE_FULL
deriving DecidableEq, Repr

/-!
## Sparse preallocation (`preallocate_file_sparse`, fdlimit.c lines 40-63)

Modelled from the spec: the primitives `tr_sys_file_preallocate`,
`tr_sys_file_seek`, `tr_sys_file_write` and `tr_sys_file_truncate` are
wrappers from file.h, which is not part of the sampled sources; they are
modeled with their standard POSIX semantics on an explicit file state
(seek sets the position; a write of one byte at position `p` extends the
size to at least `p + 1` and advances the position; truncate sets the size
exactly).  A `SparseEnv` record says which of those OS calls succeed.
-/

/-- The modeled open file a sparse preallocation operates on: its current
logical size and its seek position. -/
structure SpFile where
  size : Nat
  pos : Nat
deriving DecidableEq, Repr

/-- Which OS calls succeed during `preallocate_file_sparse`. -/
structure SparseEnv where
  nativeOk : Bool
  seekOk : Bool
  writeOk : Bool
  truncOk : Bool
deriving DecidableEq, Repr

/-- Observable outcome of `preallocate_file_sparse`: the returned success
flag, the resulting file, how many OS calls of each kind were made, and
whether the `assert (length < 0x7FFFFFFFFFFFFFFF)` guarding the fallback
held (vacuously true when the fallback is not reached). -/
structure SparseResult where
  success : Bool
  file : SpFile
  preallocCalls : Nat
  seekCalls : Nat
  writeCalls : Nat
  truncCalls : Nat
  assertOk : Bool
deriving DecidableEq, Repr

/-- `preallocate_file_sparse (fd, length)`, fdlimit.c lines 40-63:
`success` starts false, is set when `length` is 0, else the native sparse
preallocation is tried, else the seek-and-write fallback runs (guarded by
the signed-offset assert), with `&&`-short-circuiting between its three
steps. -/
def preallocate_file_sparse (env : SparseEnv) (f : SpFile) (length : Nat) :
    SparseResult :=
  if length = 0 then
    { success := true, file := f, preallocCalls := 0, seekCalls := 0,
      writeCalls := 0, truncCalls := 0, assertOk := true }
  else if env.nativeOk then
    { success := true, file := { f with size := max f.size length },
      preallocCalls := 1, seekCalls := 0, writeCalls := 0, truncCalls := 0,
      assertOk := true }
  else
    let aOk := length < 2 ^ 63
    if env.seekOk then
      let f1 : SpFile := { f with pos := length - 1 }
      if env.writeOk then
        let f2 : SpFile := { size := max f1.size (f1.pos + 1), pos := f1.pos + 1 }
        if env.truncOk then
          { success := true, file := { f2 with size := length },
            preallocCalls := 1, seekCalls := 1, writeCalls := 1,
            truncCalls := 1, assertOk := aOk }
        else
          { success := false, file := f2, preallocCalls := 1, seekCalls := 1,
            writeCalls := 1, truncCalls := 1, assertOk := aOk }
      else
        { success := false, file := f1, preallocCalls := 1, seekCalls := 1,
          writeCalls := 1, truncCalls := 0, assertOk := aOk }
    else
      { success := false, file := f, preallocCalls := 1, seekCalls := 1,
        writeCalls := 0, truncCalls := 0, assertOk := aOk }

/-!
## Full preallocation (`preallocate_file_full`, fdlimit.c lines 65-93)
-/

/-- Which OS calls succeed during `preallocate_file_full`: the open of the
target file, the native physical preallocation, and the 4096-byte zero-block
writes of the fallback loop (modeled uniformly: either every chunk write
returns its full requested size or the first one fails short). -/
structure FullEnv where
  openOk : Bool
  nativeOk : Bool
  writesOk : Bool
deriving DecidableEq, Repr

/-- The fallback write loop of `preallocate_file_full`: writes
`min length 4096` zero bytes per pass while `success && length > 0`. -/
def full_write_loop (writesOk : Bool) (length : Nat) : Bool :=
  if length = 0 then true
  else if writesOk then full_write_loop writesOk (length - min length 4096)
  else false
termination_by length
decreasing_by
  omega

/-- `preallocate_file_full (filename, length)`, fdlimit.c lines 65-93:
open (create if absent); on success try the native preallocation, else the
zero-block write loop; close; return the success flag. -/
def preallocate_file_full (env : FullEnv) (length : Nat) : Bool :=
  if env.openOk then
    if env.nativeOk then true else full_write_loop env.writesOk length
  else false

/-- Modeled on-disk size of the target file after `preallocate_file_full`
ran on a path that did not previously exist: the open creates it empty;
a successful preallocation leaves `length` bytes, a failed one leaves the
empty file created by the open (the uniform `writesOk` model fails at the
first chunk), and a failed open leaves the path absent. -/
def full_prealloc_disk (env : FullEnv) (length : Nat) : Option Nat :=
  if env.openOk then
    if preallocate_file_full env length then some length else some 0
  else none

/-!
## Descriptor-limit negotiation (`ensureSessionFdInfoExists`, lines 305-335)
-/

/-- The `struct rlimit` reading obtained by `getrlimit (RLIMIT_NOFILE)`,
with `ok = false` when the `getrlimit` call itself failed. -/
structure RlimitState where
  ok : Bool
  rlim_cur : Nat
  rlim_max : Nat
deriving DecidableEq, Repr

/-- Outcome of the one-time limit negotiation: the resulting soft limit and
how many `setrlimit` calls were made. -/
structure LimitResult where
  rlim_cur : Nat
  setrlimitCalls : Nat
deriving DecidableEq, Repr

/-- `FILE_CACHE_SIZE` from `ensureSessionFdInfoExists`, fdlimit.c line 314:
the capacity the fileset is constructed with. -/
def FILE_CACHE_SIZE : Nat := 32

/-- The rlimit block of `ensureSessionFdInfoExists`, fdlimit.c lines
321-333: when `getrlimit` succeeds, compute
`new_limit = MIN (rlim_max, FD_SETSIZE)` and, whenever `new_limit`
*differs* from the current soft limit, call `setrlimit` with it
(`setrlimit` succeeds since `new_limit <= rlim_max`) and re-read the
limit. -/
def negotiate_fd_limit (st : RlimitState) (fd_setsize : Nat) : LimitResult :=
  if st.ok then
    let old_limit := st.rlim_cur
    let new_limit := min st.rlim_max fd_setsize
    if new_limit ≠ old_limit then
      { rlim_cur := new_limit, setrlimitCalls := 1 }
    else
      { rlim_cur := old_limit, setrlimitCalls := 0 }
  else
    { rlim_cur := st.rlim_cur, setrlimitCalls := 0 }

/-!
## Cached file handles (`struct tr_cached_file`, fdlimit.c lines 101-125)
-/

/-- `struct tr_cached_file`: one slot of the fileset. -/
structure tr_cached_file where
  is_writable : Bool
  fd : Int
  torrent_id : Int
  file_index : Nat
  used_at : Nat
deriving DecidableEq, Repr

/-- `TR_CACHED_FILE_INIT = { false, TR_BAD_SYS_FILE, 0, 0, 0 }`. -/
def TR_CACHED_FILE_INIT : tr_cached_file :=
  { is_writable := false, fd := TR_BAD_SYS_FILE, torrent_id := 0,
    file_index := 0, used_at := 0 }

/-- `cached_file_is_open`: the slot holds a descriptor. -/
def cached_file_is_open (o : tr_cached_file) : Bool :=
  o.fd ≠ TR_BAD_SYS_FILE

/-- `cached_file_close`: close the OS descriptor and mark the slot free;
only `fd` is reset, the identity fields are left stale. -/
def cached_file_close (o : tr_cached_file) : tr_cached_file :=
  { o with fd := TR_BAD_SYS_FILE }

/-!
## `cached_file_open` (fdlimit.c lines 132-200)

The environment record fixes the outcome of each OS call the function
makes: directory creation, the stat of the target path (`disk`, the modeled
on-disk state: `some size` when the path exists as a regular file), the
open, and the truncate.  `newFd` is the descriptor a successful open
returns.
-/

/-- Outcomes of the OS calls made by one `cached_file_open`. -/
structure OpenEnv where
  mkdirpErr : Option Int
  disk : Option Nat
  openErr : Option Int
  newFd : Int
  truncErr : Option Int
  fullEnv : FullEnv
  sparseEnv : SparseEnv
deriving DecidableEq, Repr

/-- Observable outcome of `cached_file_open`: the returned error code
(0 on success), the slot after the call (the C function mutates only
`o->fd`), whether an OS open was attempted and with which effective
writability, how many descriptors were successfully opened, and the modeled
on-disk state of the target file afterwards. -/
structure OpenResult where
  err : Int
  slot : tr_cached_file
  openAttempted : Bool
  openedWritable : Bool
  opens : Nat
  disk : Option Nat
deriving DecidableEq, Repr

/-- `cached_file_open (o, filename, writable, allocation, file_size)`,
fdlimit.c lines 132-200, step by step:
1. if writable, `tr_mkdirp` the parent chain (failure is fatal);
2. stat the path; `already_existed` iff it is a regular file;
3. if writable, not pre-existing and allocation is FULL, run the full
   preallocation (best effort);
4. `resize_needed = already_existed && file_size < info.size`, and
   `writable |= resize_needed`;
5. open with write+create flags iff (the forced) writable;
6. open failure is fatal, propagating the error code;
7. if resize was needed, truncate to `file_size`; failure is fatal —
   and, as in the C, the slot keeps the freshly opened descriptor;
8. if writable, not pre-existing and allocation is SPARSE, run the sparse
   preallocation (best effort). -/
def cached_file_open (o : tr_cached_file) (env : OpenEnv) (writable : Bool)
    (alloc : PreallocMode) (file_size : Nat) : OpenResult :=
  -- `const int err = tr_mkdirp (dir, 0777) ? errno : 0; if (err) ...`:
  -- `mkdirpErr = some e` models a failing mkdirp that left `errno = e`
  let mkErr : Int := (if writable then env.mkdirpErr else none).getD 0
  if mkErr ≠ 0 then
    { err := mkErr, slot := o, openAttempted := false, openedWritable := false,
      opens := 0, disk := env.disk }
  else
    let already_existed := env.disk.isSome
    let info_size := env.disk.getD 0
    let disk1 :=
      if writable && !already_existed && (alloc == .TR_PREALLOCATE_FULL) then
        full_prealloc_disk env.fullEnv file_size
      else env.disk
    let resize_needed := already_existed && decide (file_size < info_size)
    let writable2 := writable || resize_needed
    match env.openErr with
    | some err =>
      { err := err, slot := { o with fd := TR_BAD_SYS_FILE },
        openAttempted := true, openedWritable := writable2, opens := 0,
        disk := disk1 }
    | none =>
      let disk2 := if writable2 && disk1.isNone then some 0 else disk1
      let o2 : tr_cached_file := { o with fd := env.newFd }
      if resize_needed then
        match env.truncErr with
        | some err =>
          { err := err, slot := o2, openAttempted := true,
            openedWritable := writable2, opens := 1, disk := disk2 }
        | none =>
          { err := 0, slot := o2, openAttempted := true,
            openedWritable := writable2, opens := 1, disk := some file_size }
      else
        let disk3 :=
          if writable2 && !already_existed && (alloc == .TR_PREALLOCATE_SPARSE)
          then some ((preallocate_file_sparse env.sparseEnv
                        { size := disk2.getD 0, pos := 0 } file_size).file.size)
          else disk2
        { err := 0, slot := o2, openAttempted := true,
          openedWritable := writable2, opens := 1, disk := disk3 }

/-!
## The fileset (`struct tr_fileset`, fdlimit.c lines 206-291)

The fixed-capacity array is a `List tr_cached_file`; the C functions that
return a slot pointer return its index here.
-/

/-- `fileset_construct (set, n)`: `n` slots, all `TR_CACHED_FILE_INIT`. -/
def fileset_construct (n : Nat) : List tr_cached_file :=
  List.replicate n TR_CACHED_FILE_INIT

/-- The scan of `fileset_lookup`, fdlimit.c lines 255-266: index of the
first slot that is open and matches both identity fields. -/
def fileset_lookup (tid : Int) (i : Nat) :
    List tr_cached_file → Option Nat
  | [] => none
  | o :: rest =>
    if tid = o.torrent_id ∧ i = o.file_index ∧ cached_file_is_open o then
      some 0
    else (fileset_lookup tid i rest).map Nat.succ

/-- The per-slot condition of the `fileset_lookup` scan, as a named
predicate: open and carrying the identity `(tid, i)`. -/
def slotMatches (tid : Int) (i : Nat) (o : tr_cached_file) : Prop :=
  tid = o.torrent_id ∧ i = o.file_index ∧ cached_file_is_open o

instance (tid : Int) (i : Nat) (o : tr_cached_file) :
    Decidable (slotMatches tid i o) := by
  unfold slotMatches; infer_instance

/-- The first scan of `fileset_get_empty_slot`, fdlimit.c lines 277-280:
index of the first slot whose descriptor is absent. -/
def first_free : List tr_cached_file → Option Nat
  | [] => none
  | o :: rest =>
    if cached_file_is_open o then (first_free rest).map Nat.succ
    else some 0

/-- The cull scan of `fileset_get_empty_slot`, fdlimit.c lines 283-285:
`cull` is replaced whenever `o->used_at < cull->used_at`, so the scan ends
on the first slot attaining the minimal `used_at`.  The accumulator and the
result pair an index with its `used_at`. -/
def cull_scan : List tr_cached_file → Nat → Option (Nat × Nat) →
    Option (Nat × Nat)
  | [], _, best => best
  | o :: rest, j, best =>
    let best2 :=
      match best with
      | none => some (j, o.used_at)
      | some (bj, bu) =>
        if o.used_at < bu then some (j, o.used_at) else some (bj, bu)
    cull_scan rest (j + 1) best2

/-- `fileset_get_empty_slot`, fdlimit.c lines 268-291: `none` on an empty
set; otherwise the first free slot (no close performed), else the
least-recently-used open slot, closed.  Returns the chosen index, the
updated set, and how many descriptors were closed (0 or 1). -/
def fileset_get_empty_slot (set : List tr_cached_file) :
    Option (Nat × List tr_cached_file × Nat) :=
  if set.isEmpty then none
  else
    match first_free set with
    | some j => some (j, set, 0)
    | none =>
      match cull_scan set 0 none with
      | some (j, _) =>
        some (j, set.set j (cached_file_close (set.getD j TR_CACHED_FILE_INIT)), 1)
      | none => none

/-- `fileset_close_all`, fdlimit.c lines 225-234. -/
def fileset_close_all (set : List tr_cached_file) : List tr_cached_file :=
  set.map (fun o => if cached_file_is_open o then cached_file_close o else o)

/-- `fileset_close_torrent`, fdlimit.c lines 244-253: close every open
slot whose `torrent_id` matches. -/
def fileset_close_torrent (set : List tr_cached_file) (tid : Int) :
    List tr_cached_file :=
  set.map (fun o =>
    if o.torrent_id = tid ∧ cached_file_is_open o then cached_file_close o
    else o)

/-!
## The checkout / peek / close API (fdlimit.c lines 363-448)
-/

/-- Observable outcome of one `tr_fdFileCheckout`: the returned descriptor
(`TR_BAD_SYS_FILE` on failure), the fileset afterwards, the number of OS
closes and successful OS opens the call performed, whether an open was
attempted and with which effective writability, the `errno` the call set on
failure (0 otherwise), and the modeled on-disk state of the target file. -/
structure CheckoutResult where
  fd : Int
  set : List tr_cached_file
  closes : Nat
  opens : Nat
  openAttempted : Bool
  openedWritable : Bool
  errno : Int
  disk : Option Nat
deriving DecidableEq, Repr

/-- `tr_fdFileCheckout`, fdlimit.c lines 413-448:
look the identity up; on a match that is read-only while a writable handle
is requested, close it so it can be reopened read-write; on a miss, acquire
a slot from `fileset_get_empty_slot` (possibly evicting the LRU slot).  If
the chosen slot is not open, run `cached_file_open`; an error there makes
the checkout fail with that `errno` (the slot is left exactly as
`cached_file_open` left it, and the identity fields are *not* updated);
on a fresh open, record the *caller's* requested writability in
`is_writable`.  On success stamp the identity and `used_at := now` and
return the descriptor.  `now` stands for `tr_time ()`.

The slot-acquisition phase (fdlimit.c lines 423-428) is split out as
`checkout_acquire`: on a hit whose cached slot is read-only while a
writable handle is requested, close the slot so it can be reopened
read-write; on a miss, take a slot from `fileset_get_empty_slot`.  It
returns the chosen index, the fileset after the phase, and the number of
descriptors closed by it. -/
def checkout_acquire (set : List tr_cached_file) (torrent_id : Int)
    (i : Nat) (writable : Bool) : Option (Nat × List tr_cached_file × Nat) :=
  match fileset_lookup torrent_id i set with
  | some j =>
    if writable && !(set.getD j TR_CACHED_FILE_INIT).is_writable then
      some (j, set.set j (cached_file_close (set.getD j TR_CACHED_FILE_INIT)), 1)
    else some (j, set, 0)
  | none => fileset_get_empty_slot set

def tr_fdFileCheckout (set : List tr_cached_file) (env : OpenEnv)
    (torrent_id : Int) (i : Nat) (writable : Bool) (alloc : PreallocMode)
    (file_size : Nat) (now : Nat) : CheckoutResult :=
  match checkout_acquire set torrent_id i writable with
  | none =>
    -- only reachable on a zero-capacity set, where the C would fault on a
    -- NULL slot pointer; modeled as a failed checkout leaving the set alone
    { fd := TR_BAD_SYS_FILE, set := set, closes := 0, opens := 0,
      openAttempted := false, openedWritable := false, errno := 0,
      disk := env.disk }
  | some (j, set1, closes1) =>
    if cached_file_is_open (set1.getD j TR_CACHED_FILE_INIT) then
      { fd := (set1.getD j TR_CACHED_FILE_INIT).fd,
        set := set1.set j { set1.getD j TR_CACHED_FILE_INIT with
                            torrent_id := torrent_id, file_index := i,
                            used_at := now },
        closes := closes1, opens := 0, openAttempted := false,
        openedWritable := false, errno := 0, disk := env.disk }
    else
      match cached_file_open (set1.getD j TR_CACHED_FILE_INIT) env writable
          alloc file_size with
      | r =>
        if r.err ≠ 0 then
          { fd := TR_BAD_SYS_FILE, set := set1.set j r.slot,
            closes := closes1, opens := r.opens,
            openAttempted := r.openAttempted,
            openedWritable := r.openedWritable, errno := r.err,
            disk := r.disk }
        else
          { fd := r.slot.fd,
            set := set1.set j
              ({ r.slot with
                 is_writable := writable, torrent_id := torrent_id,
                 file_index := i, used_at := now }),
            closes := closes1, opens := r.opens,
            openAttempted := r.openAttempted,
            openedWritable := r.openedWritable, errno := 0, disk := r.disk }

/-- `tr_fdFileGetCached`, fdlimit.c lines 379-389: non-opening peek.
Returns `TR_BAD_SYS_FILE` when no slot matches or a writable handle is
required but the cached one is not `is_writable`; otherwise refreshes
`used_at` and returns the cached descriptor. -/
def tr_fdFileGetCached (set : List tr_cached_file) (tid : Int) (i : Nat)
    (writable : Bool) (now : Nat) : Int × List tr_cached_file :=
  match fileset_lookup tid i set with
  | none => (TR_BAD_SYS_FILE, set)
  | some j =>
    let o := set.getD j TR_CACHED_FILE_INIT
    if writable && !o.is_writable then (TR_BAD_SYS_FILE, set)
    else (o.fd, set.set j { o with used_at := now })

/-- `tr_fdFileClose`, fdlimit.c lines 363-377: if the identity is cached,
flush (when writable) and close the slot. -/
def tr_fdFileClose (set : List tr_cached_file) (tid : Int) (i : Nat) :
    List tr_cached_file :=
  match fileset_lookup tid i set with
  | none => set
  | some j => set.set j (cached_file_close (set.getD j TR_CACHED_FILE_INIT))

/-!
## Operation traces over one fileset
-/

/-- One mutating fileset operation, with the OS-call outcomes a checkout
needs bundled in. -/
inductive FdOp where
  | checkout (env : OpenEnv) (torrent_id : Int) (i : Nat) (writable : Bool)
      (alloc : PreallocMode) (file_size : Nat) (now : Nat)
  | fileClose (torrent_id : Int) (i : Nat)
  | torrentClose (torrent_id : Int)
  | closeAll

/-- Apply one operation to the fileset. -/
def step (set : List tr_cached_file) : FdOp → List tr_cached_file
  | .checkout env tid i w alloc sz now =>
    (tr_fdFileCheckout set env tid i w alloc sz now).set
  | .fileClose tid i => tr_fdFileClose set tid i
  | .torrentClose tid => fileset_close_torrent set tid
  | .closeAll => fileset_close_all set

/-- Apply a whole trace of operations. -/
def run (set : List tr_cached_file) (ops : List FdOp) : List tr_cached_file :=
  ops.foldl step set

/-!
## Socket admission (`tr_fdSocketCreate` / `tr_fdSocketClose`,
fdlimit.c lines 456-492 and 529-546)
-/

/-- The socket-related fields of `struct tr_fdInfo` plus bookkeeping:
`peerCount` is the session's live socket count; `osOpen` counts the OS
sockets currently open on behalf of this model (to observe that a refusal
leaves nothing dangling). -/
structure SockState where
  peerCount : Int
  osOpen : Nat
deriving DecidableEq, Repr

/-- Outcome the OS `socket ()` call would have: the returned descriptor,
`-1` on failure. -/
structure SockEnv where
  socketResult : Int
deriving DecidableEq, Repr

/-- Observable outcome of one `tr_fdSocketCreate`: its return value, the
state afterwards, and whether the OS `socket ()` call was made. -/
structure SockCreateResult where
  s : Int
  st : SockState
  osCalls : Nat
deriving DecidableEq, Repr

/-- `tr_fdSocketCreate`, fdlimit.c lines 456-492: `s` starts at -1; only
when `peerCount < peerLimit` is the OS `socket ()` call made; when the call
returned a descriptor (`s > -1`) the count is incremented. -/
def tr_fdSocketCreate (st : SockState) (peerLimit : Int) (env : SockEnv) :
    SockCreateResult :=
  if st.peerCount < peerLimit then
    let s := env.socketResult
    { s := s,
      st := { peerCount := if s > -1 then st.peerCount + 1 else st.peerCount,
              osOpen := if s > -1 then st.osOpen + 1 else st.osOpen },
      osCalls := 1 }
  else
    { s := -1, st := st, osCalls := 0 }

/-- `tr_fdSocketClose`, fdlimit.c lines 529-546: when the descriptor is
valid (`fd >= 0`), close it at the OS level and decrement the count. -/
def tr_fdSocketClose (st : SockState) (fd : Int) : SockState :=
  if fd ≥ 0 then { peerCount := st.peerCount - 1, osOpen := st.osOpen - 1 }
  else st

/-!
## Invariants and auxiliary predicates
-/

/-- Number of slots currently holding an open descriptor. -/
def openCount (set : List tr_cached_file) : Nat :=
  set.countP (fun o => cached_file_is_open o)

/-- Identity uniqueness: no two distinct open slots carry the same
(owner, member) composite identity. -/
def UniqOpen (set : List tr_cached_file) : Prop :=
  ∀ j k, j < set.length → k < set.length → j ≠ k →
    cached_file_is_open (set.getD j TR_CACHED_FILE_INIT) →
    cached_file_is_open (set.getD k TR_CACHED_FILE_INIT) →
    (set.getD j TR_CACHED_FILE_INIT).torrent_id
        ≠ (set.getD k TR_CACHED_FILE_INIT).torrent_id ∨
    (set.getD j TR_CACHED_FILE_INIT).file_index
        ≠ (set.getD k TR_CACHED_FILE_INIT).file_index

/-- OS error codes are nonzero (`errno` and `tr_error` codes always are):
rules out the degenerate worlds in which a failing OS call reports error
code 0 and the C code therefore takes its success path. -/
def envWF (env : OpenEnv) : Prop :=
  env.mkdirpErr ≠ some 0 ∧ env.openErr ≠ some 0 ∧ env.truncErr ≠ some 0

instance (env : OpenEnv) : Decidable (envWF env) := by
  unfold envWF; infer_instance

/-- A checkout environment is *clean* when it cannot make `cached_file_open`
fail at the truncate step after the open already succeeded — the one
failure path of fdlimit.c that leaves the freshly opened descriptor behind
in the slot. -/
def openClean (env : OpenEnv) (writable : Bool) (file_size : Nat) : Prop :=
  (if writable then env.mkdirpErr else none).getD 0 = 0 →
  env.openErr = none →
  env.disk.isSome = true →
  file_size < env.disk.getD 0 →
  env.truncErr.getD 0 = 0

instance (env : OpenEnv) (w : Bool) (sz : Nat) :
    Decidable (openClean env w sz) := by
  unfold openClean; infer_instance

/-- An operation is clean when it is not a checkout with a dirty
environment. -/
def opClean : FdOp → Prop
  | .checkout env _ _ w _ sz _ => openClean env w sz
  | _ => True

instance (op : FdOp) : Decidable (opClean op) := by
  unfold opClean; cases op <;> infer_instance

/-!
## Concrete scenario inputs

Environments and traces used to evaluate the code at concrete inputs.
-/

/-- Environment of a checkout whose target file does not yet exist and
whose OS calls all succeed, opening descriptor `fd`. -/
def envNew (fd : Int) : OpenEnv :=
  { mkdirpErr := none, disk := none, openErr := none, newFd := fd,
    truncErr := none, fullEnv := ⟨true, true, true⟩,
    sparseEnv := ⟨true, true, true, true⟩ }

/-- Environment of a checkout whose target file exists with size `cur`,
whose open succeeds with descriptor `fd`, and whose truncate fails with
error code 5 (EIO). -/
def envTruncFail (fd : Int) (cur : Nat) : OpenEnv :=
  { mkdirpErr := none, disk := some cur, openErr := none, newFd := fd,
    truncErr := some 5, fullEnv := ⟨true, true, true⟩,
    sparseEnv := ⟨true, true, true, true⟩ }

/-- Environment of a checkout whose target file exists with size `cur`
and whose OS calls all succeed, opening descriptor `fd`. -/
def envResize (fd : Int) (cur : Nat) : OpenEnv :=
  { mkdirpErr := none, disk := some cur, openErr := none, newFd := fd,
    truncErr := none, fullEnv := ⟨true, true, true⟩,
    sparseEnv := ⟨true, true, true, true⟩ }

/-- Trace driving the truncate-failure leak: fill a capacity-2 fileset
with identities (1,0) and (2,0). -/
def leakPrefix : List FdOp :=
  [ .checkout (envNew 10) 1 0 true .TR_PREALLOCATE_NONE 100 1,
    .checkout (envNew 11) 2 0 true .TR_PREALLOCATE_NONE 100 2 ]

/-- The fileset after `leakPrefix`: both slots open, slot 0 = (1,0) with
descriptor 10 (LRU), slot 1 = (2,0) with descriptor 11. -/
def leakSet : List tr_cached_file :=
  run (fileset_construct 2) leakPrefix

/-- The failing checkout: identity (3,5), target size 50, backing file of
size 100 so a truncate is required, and the truncate fails; the open
itself succeeds with descriptor 12. -/
def leakCheckout : CheckoutResult :=
  tr_fdFileCheckout leakSet (envTruncFail 12 100) 3 5 true
    .TR_PREALLOCATE_NONE 50 3

/-- Fileset obtained by one read-only checkout of identity (1,0) on a
fresh capacity-2 fileset whose backing file pre-exists at 2048 bytes while
the target size is 1024: the open is forced writable by the resize, yet
the slot records the caller's read-only request. -/
def c10set : List tr_cached_file :=
  (tr_fdFileCheckout (fileset_construct 2) (envResize 20 2048) 1 0 false
    .TR_PREALLOCATE_NONE 1024 1).set

/-- Trace driving the identity-duplication consequence of the same leak on
a capacity-2 fileset: open (2,0) then (1,0), close both (leaving stale
identity fields behind), reopen (1,0) — it lands in slot 0, leaving slot 1
free but still carrying the stale identity (1,0) — then check out (3,7)
with a failing truncate, which leaves slot 1 open under identity (1,0). -/
def dupTrace : List FdOp :=
  [ .checkout (envNew 10) 2 0 true .TR_PREALLOCATE_NONE 100 1,
    .checkout (envNew 11) 1 0 true .TR_PREALLOCATE_NONE 100 2,
    .fileClose 2 0,
    .fileClose 1 0,
    .checkout (envNew 12) 1 0 true .TR_PREALLOCATE_NONE 100 3,
    .checkout (envTruncFail 13 100) 3 7 true .TR_PREALLOCATE_NONE 50 4 ]

/-!
## List access helpers
-/

theorem getD_set_self {α : Type} (l : List α) (j : Nat) (a d : α)
    (h : j < l.length) : (l.set j a).getD j d = a := by
  rw [List.getD_eq_getElem _ _ (by simpa using h)]
  simp [List.getElem_set_self]

theorem getD_set_ne {α : Type} (l : List α) (j k : Nat) (a d : α)
    (h : j ≠ k) : (l.set j a).getD k d = l.getD k d := by
  simp [List.getD_eq_getD_get?, List.getElem?_set_ne h]

theorem getD_map_lt {α β : Type} (f : α → β) (l : List α) (k : Nat)
    (d : α) (e : β) (h : k < l.length) :
    (l.map f).getD k e = f (l.getD k d) := by
  rw [List.getD_eq_getElem _ _ (by simpa using h), List.getD_eq_getElem _ _ h]
  simp

/-!
## `fileset_lookup` lemmas
-/

theorem fileset_lookup_cons (tid : Int) (i : Nat) (o : tr_cached_file)
    (rest : List tr_cached_file) :
    fileset_lookup tid i (o :: rest) =
      if slotMatches tid i o then some 0
      else (fileset_lookup tid i rest).map Nat.succ := rfl

theorem fileset_lookup_some {tid : Int} {i : Nat} :
    ∀ {set : List tr_cached_file} {j : Nat},
      fileset_lookup tid i set = some j →
      j < set.length ∧ slotMatches tid i (set.getD j TR_CACHED_FILE_INIT)
  | [], j => by intro h; exact absurd h (by simp [fileset_lookup])
  | o :: rest, j => by
    intro h
    rw [fileset_lookup_cons] at h
    by_cases hm : slotMatches tid i o
    · simp only [hm, if_pos] at h
      cases h
      exact ⟨by simp, by simpa using hm⟩
    · simp only [hm, if_neg, not_false_iff, Option.map_eq_some'] at h
      obtain ⟨j', hj', rfl⟩ := h
      obtain ⟨h1, h2⟩ := fileset_lookup_some hj'
      exact ⟨by simpa using h1, by simpa using h2⟩

theorem fileset_lookup_none {tid : Int} {i : Nat} :
    ∀ {set : List tr_cached_file},
      fileset_lookup tid i set = none →
      ∀ k, k < set.length → ¬ slotMatches tid i (set.getD k TR_CACHED_FILE_INIT)
  | [] => by intro _ k hk; simp at hk
  | o :: rest => by
    intro h k hk
    rw [fileset_lookup_cons] at h
    by_cases hm : slotMatches tid i o
    · simp [hm] at h
    · simp only [hm, if_neg, not_false_iff, Option.map_eq_none'] at h
      match k with
      | 0 => simpa using hm
      | Nat.succ k' =>
        exact fileset_lookup_none h k' (by simpa using hk)

theorem fileset_lookup_eq_none {tid : Int} {i : Nat} :
    ∀ {set : List tr_cached_file},
      (∀ k, k < set.length →
        ¬ slotMatches tid i (set.getD k TR_CACHED_FILE_INIT)) →
      fileset_lookup tid i set = none
  | [] => by intro _; rfl
  | o :: rest => by
    intro h
    rw [fileset_lookup_cons]
    have hm : ¬ slotMatches tid i o := by simpa using h 0 (by simp)
    have ht : fileset_lookup tid i rest = none :=
      fileset_lookup_eq_none (fun k hk => by simpa using h (k + 1) (by simpa using hk))
    simp [hm, ht]

theorem fileset_lookup_set_self {tid : Int} {i : Nat} {o : tr_cached_file} :
    ∀ {set : List tr_cached_file} {j : Nat},
      fileset_lookup tid i set = none → j < set.length →
      slotMatches tid i o →
      fileset_lookup tid i (set.set j o) = some j
  | [], j => by intro _ hj; simp at hj
  | a :: rest, j => by
    intro hn hj hm
    rw [fileset_lookup_cons] at hn
    by_cases ha : slotMatches tid i a
    · simp [ha] at hn
    · simp only [ha, if_neg, not_false_iff, Option.map_eq_none'] at hn
      match j with
      | 0 => simp [List.set, fileset_lookup_cons, hm]
      | Nat.succ j' =>
        have hj2 : j' < rest.length := by simpa using hj
        have := fileset_lookup_set_self hn hj2 hm
        simp [List.set, fileset_lookup_cons, ha, this]

/-!
## `first_free` lemmas
-/

theorem first_free_some :
    ∀ {set : List tr_cached_file} {j : Nat},
      first_free set = some j →
      j < set.length ∧
        cached_file_is_open (set.getD j TR_CACHED_FILE_INIT) = false
  | [], j => by intro h; exact absurd h (by simp [first_free])
  | o :: rest, j => by
    intro h
    unfold first_free at h
    by_cases ho : cached_file_is_open o
    · simp only [ho, if_pos, Option.map_eq_some'] at h
      obtain ⟨j', hj', rfl⟩ := h
      obtain ⟨h1, h2⟩ := first_free_some hj'
      exact ⟨by simpa using h1, by simpa using h2⟩
    · simp only [ho, if_neg, not_false_iff] at h
      cases h
      refine ⟨by simp, ?_⟩
      simpa using ho
  termination_by set => set.length

theorem first_free_eq_none :
    ∀ {set : List tr_cached_file},
      (∀ k, k < set.length →
        cached_file_is_open (set.getD k TR_CACHED_FILE_INIT) = true) →
      first_free set = none
  | [] => by intro _; rfl
  | o :: rest => by
    intro h
    unfold first_free
    have ho : cached_file_is_open o = true := by simpa using h 0 (by simp)
    have ht : first_free rest = none :=
      first_free_eq_none (fun k hk => by simpa using h (k + 1) (by simpa using hk))
    simp [ho, ht]

/-!
## `cull_scan` lemmas: the scan ends on a slot of minimal `used_at`
-/

theorem cull_scan_some :
    ∀ (l : List tr_cached_file) (j0 bj bu : Nat),
      ∃ j u, cull_scan l j0 (some (bj, bu)) = some (j, u) ∧ u ≤ bu ∧
        ((u = bu ∧ j = bj) ∨
          (j0 ≤ j ∧ j - j0 < l.length ∧
            (l.getD (j - j0) TR_CACHED_FILE_INIT).used_at = u)) ∧
        ∀ k, k < l.length → u ≤ (l.getD k TR_CACHED_FILE_INIT).used_at
  | [], j0, bj, bu =>
    ⟨bj, bu, rfl, le_refl _, Or.inl ⟨rfl, rfl⟩, fun k hk => by simp at hk⟩
  | o :: rest, j0, bj, bu => by
    by_cases hlt : o.used_at < bu
    · obtain ⟨j, u, heq, hle, hdisj, hmin⟩ :=
        cull_scan_some rest (j0 + 1) j0 o.used_at
      refine ⟨j, u, ?_, le_of_lt (lt_of_le_of_lt hle hlt), ?_, ?_⟩
      · simpa [cull_scan, hlt] using heq
      · right
        rcases hdisj with ⟨hu, hj⟩ | ⟨h1, h2, h3⟩
        · subst hj
          exact ⟨le_refl _, by simp, by simpa using hu.symm⟩
        · refine ⟨le_trans (Nat.le_succ _) h1, ?_, ?_⟩
          · simp only [List.length_cons]; omega
          · have hj : j - j0 = (j - (j0 + 1)) + 1 := by omega
            rw [hj, List.getD_cons_succ]
            exact h3
      · intro k hk
        match k with
        | 0 => simpa using hle
        | Nat.succ k' => simpa using hmin k' (by simpa using hk)
    · obtain ⟨j, u, heq, hle, hdisj, hmin⟩ :=
        cull_scan_some rest (j0 + 1) bj bu
      refine ⟨j, u, ?_, hle, ?_, ?_⟩
      · simpa [cull_scan, hlt] using heq
      · rcases hdisj with ⟨hu, hj⟩ | ⟨h1, h2, h3⟩
        · exact Or.inl ⟨hu, hj⟩
        · refine Or.inr ⟨le_trans (Nat.le_succ _) h1, ?_, ?_⟩
          · simp only [List.length_cons]; omega
          · have hj : j - j0 = (j - (j0 + 1)) + 1 := by omega
            rw [hj, List.getD_cons_succ]
            exact h3
      · intro k hk
        match k with
        | 0 =>
          simpa using le_trans hle (Nat.le_of_not_lt hlt)
        | Nat.succ k' => simpa using hmin k' (by simpa using hk)

theorem cull_scan_spec (set : List tr_cached_file) (hne : set ≠ []) :
    ∃ j u, cull_scan set 0 none = some (j, u) ∧ j < set.length ∧
      (set.getD j TR_CACHED_FILE_INIT).used_at = u ∧
      ∀ k, k < set.length →
        u ≤ (set.getD k TR_CACHED_FILE_INIT).used_at := by
  match set with
  | [] => exact absurd rfl hne
  | o :: rest =>
    obtain ⟨j, u, heq, hle, hdisj, hmin⟩ := cull_scan_some rest 1 0 o.used_at
    refine ⟨j, u, ?_, ?_, ?_, ?_⟩
    · simpa [cull_scan] using heq
    · rcases hdisj with ⟨hu, hj⟩ | ⟨h1, h2, h3⟩
      · subst hj; simp
      · simp only [List.length_cons]
        omega
    · rcases hdisj with ⟨hu, hj⟩ | ⟨h1, h2, h3⟩
      · subst hj; simpa using hu.symm
      · have hj : j = (j - 1) + 1 := by omega
        rw [hj, List.getD_cons_succ]
        have : j - 1 = j - (0 + 1) := by omega
        rw [this]
        exact h3
    · intro k hk
      match k with
      | 0 => simpa using hle
      | Nat.succ k' =>
        simpa using hmin k' (by simpa using hk)

/-!
## `fileset_get_empty_slot` lemmas
-/

/-- What `fileset_get_empty_slot` guarantees about the slot it returns:
the index is in range, the set keeps its length, the returned slot is
free in the returned set, and every other slot is untouched. -/
theorem fileset_get_empty_slot_spec {set : List tr_cached_file} {j : Nat}
    {set1 : List tr_cached_file} {c : Nat}
    (h : fileset_get_empty_slot set = some (j, set1, c)) :
    j < set.length ∧ set1.length = set.length ∧
      cached_file_is_open (set1.getD j TR_CACHED_FILE_INIT) = false ∧
      (∀ k, k < set.length → k ≠ j →
        set1.getD k TR_CACHED_FILE_INIT = set.getD k TR_CACHED_FILE_INIT) := by
  unfold fileset_get_empty_slot at h
  by_cases he : set.isEmpty
  · simp [he] at h
  · rw [if_neg he] at h
    cases hf : first_free set with
    | some j' =>
      rw [hf] at h
      cases h
      obtain ⟨h1, h2⟩ := first_free_some hf
      exact ⟨h1, rfl, h2, fun k _ _ => rfl⟩
    | none =>
      rw [hf] at h
      have hne : set ≠ [] := by
        intro hnil; exact he (by simp [hnil])
      obtain ⟨j', u, heq, hj', hu, hmin⟩ := cull_scan_spec set hne
      rw [heq] at h
      cases h
      refine ⟨hj', by simp, ?_, ?_⟩
      · rw [getD_set_self _ _ _ _ hj']
        simp [cached_file_close, cached_file_is_open, TR_BAD_SYS_FILE]
      · intro k hk hkj
        exact getD_set_ne _ _ _ _ _ (fun hh => hkj hh.symm)

/-- When every slot is open, `fileset_get_empty_slot` closes and returns
a slot whose `used_at` is minimal among all slots. -/
theorem fileset_get_empty_slot_lru {set : List tr_cached_file}
    (hne : set ≠ [])
    (hall : ∀ k, k < set.length →
      cached_file_is_open (set.getD k TR_CACHED_FILE_INIT) = true) :
    ∃ j, fileset_get_empty_slot set =
        some (j, set.set j (cached_file_close (set.getD j TR_CACHED_FILE_INIT)), 1) ∧
      j < set.length ∧
      ∀ k, k < set.length →
        (set.getD j TR_CACHED_FILE_INIT).used_at
          ≤ (set.getD k TR_CACHED_FILE_INIT).used_at := by
  have he : set.isEmpty = false := by
    cases set with
    | nil => exact absurd rfl hne
    | cons a l => simp
  have hf : first_free set = none := first_free_eq_none hall
  obtain ⟨j, u, heq, hj, hu, hmin⟩ := cull_scan_spec set hne
  refine ⟨j, ?_, hj, ?_⟩
  · unfold fileset_get_empty_slot
    rw [if_neg (by simp [he]), hf, heq]
  · intro k hk
    rw [hu]
    exact hmin k hk

/-!
## Length preservation: no operation grows or shrinks the fileset
-/

/-- What the acquisition phase guarantees: the chosen index is in range,
the length is preserved, the slots other than the chosen one are untouched,
and the number of closes is at most one. -/
theorem checkout_acquire_spec {set : List tr_cached_file} {tid : Int}
    {i : Nat} {w : Bool} {j : Nat} {set1 : List tr_cached_file} {c : Nat}
    (h : checkout_acquire set tid i w = some (j, set1, c)) :
    j < set.length ∧ set1.length = set.length ∧
      ∀ k, k < set.length → k ≠ j →
        set1.getD k TR_CACHED_FILE_INIT = set.getD k TR_CACHED_FILE_INIT := by
  unfold checkout_acquire at h
  split at h
  next j' hl =>
    have hj' := (fileset_lookup_some hl).1
    split at h <;> cases h
    · exact ⟨hj', by simp,
        fun k _ hk => getD_set_ne _ _ _ _ _ (fun hh => hk hh.symm)⟩
    · exact ⟨hj', rfl, fun _ _ _ => rfl⟩
  next hl =>
    obtain ⟨h1, h2, _, h4⟩ := fileset_get_empty_slot_spec h
    exact ⟨h1, h2, h4⟩

theorem checkout_set_length (set : List tr_cached_file) (env : OpenEnv)
    (tid : Int) (i : Nat) (w : Bool) (alloc : PreallocMode) (sz : Nat)
    (now : Nat) :
    (tr_fdFileCheckout set env tid i w alloc sz now).set.length = set.length := by
  unfold tr_fdFileCheckout
  split
  · rfl
  next j set1 c heq =>
    have hlen : set1.length = set.length := (checkout_acquire_spec heq).2.1
    split
    · simpa using hlen
    · dsimp only
      split <;> simpa using hlen

theorem step_length (set : List tr_cached_file) (op : FdOp) :
    (step set op).length = set.length := by
  cases op with
  | checkout env tid i w alloc sz now => exact checkout_set_length ..
  | fileClose tid i =>
    show (tr_fdFileClose set tid i).length = set.length
    unfold tr_fdFileClose
    split
    · rfl
    · simp
  | torrentClose tid => simp [step, fileset_close_torrent]
  | closeAll => simp [step, fileset_close_all]

theorem run_length (ops : List FdOp) :
    ∀ set : List tr_cached_file, (run set ops).length = set.length := by
  induction ops with
  | nil => intro set; rfl
  | cons op rest ih =>
    intro set
    calc (run (step set op) rest).length = (step set op).length := ih _
      _ = set.length := step_length ..

theorem openCount_le_length (set : List tr_cached_file) :
    openCount set ≤ set.length :=
  List.countP_le_length _

/-!
## Claim theorems
-/

/-- C7: sparse preallocation with a target length of 0 reports success
without performing any OS preallocation, seek, or write; and when the OS
rejects native sparse preallocation, the seek + write + truncate fallback
(guarded by the `length < 2^63` signed-offset assertion, a programming-error
precondition) yields a file of exactly the requested length. -/
theorem preallocate_file_sparse_spec (env : SparseEnv) (f : SpFile)
    (length : Nat) :
    (length = 0 →
      (preallocate_file_sparse env f length).success = true ∧
      (preallocate_file_sparse env f length).preallocCalls = 0 ∧
      (preallocate_file_sparse env f length).seekCalls = 0 ∧
      (preallocate_file_sparse env f length).writeCalls = 0) ∧
    (env.nativeOk = false → env.seekOk = true → env.writeOk = true →
      env.truncOk = true → 0 < length → length < 2 ^ 63 →
      (preallocate_file_sparse env f length).success = true ∧
      (preallocate_file_sparse env f length).file.size = length ∧
      (preallocate_file_sparse env f length).assertOk = true) := by
  constructor
  · intro h0
    subst h0
    simp [preallocate_file_sparse]
  · intro hn hs hw ht h0 ha
    have h0' : length ≠ 0 := Nat.pos_iff_ne_zero.mp h0
    have ha' : length < 9223372036854775808 := by
      calc length < 2 ^ 63 := ha
        _ = 9223372036854775808 := by norm_num
    simp [preallocate_file_sparse, h0', hn, hs, hw, ht, ha']

theorem preallocate_file_sparse_spec_witness :
    ((0 : Nat) = 0 →
      (preallocate_file_sparse ⟨true, true, true, true⟩ ⟨7, 0⟩ 0).success = true ∧
      (preallocate_file_sparse ⟨true, true, true, true⟩ ⟨7, 0⟩ 0).preallocCalls = 0 ∧
      (preallocate_file_sparse ⟨true, true, true, true⟩ ⟨7, 0⟩ 0).seekCalls = 0 ∧
      (preallocate_file_sparse ⟨true, true, true, true⟩ ⟨7, 0⟩ 0).writeCalls = 0) ∧
    ((preallocate_file_sparse ⟨false, true, true, true⟩ ⟨0, 0⟩ 1000).success = true ∧
      (preallocate_file_sparse ⟨false, true, true, true⟩ ⟨0, 0⟩ 1000).file.size = 1000 ∧
      (preallocate_file_sparse ⟨false, true, true, true⟩ ⟨0, 0⟩ 1000).assertOk = true) :=
  ⟨(preallocate_file_sparse_spec ⟨true, true, true, true⟩ ⟨7, 0⟩ 0).1,
   (preallocate_file_sparse_spec ⟨false, true, true, true⟩ ⟨0, 0⟩ 1000).2
     (by decide) (by decide) (by decide) (by decide) (by decide) (by decide)⟩

/-- C2 counterexample: with current soft limit 2048, hard ceiling 4096 and
FD_SETSIZE 1024, the computed value `min (4096, 1024) = 1024` does *not*
increase the current soft limit, yet the negotiation calls `setrlimit` and
*lowers* the soft limit to 1024 — the code changes the limit whenever the
computed value differs from the current one, not only when it increases
it. -/
theorem negotiate_fd_limit_lowers_soft_limit :
    ¬ min 4096 1024 > 2048 ∧
    (negotiate_fd_limit { ok := true, rlim_cur := 2048, rlim_max := 4096 }
        1024).setrlimitCalls = 1 ∧
    (negotiate_fd_limit { ok := true, rlim_cur := 2048, rlim_max := 4096 }
        1024).rlim_cur = 1024 ∧
    (1024 : Nat) < 2048 := by decide

/-- C2 (amended): when the `getrlimit` query succeeds, the one-time
negotiation leaves the soft limit equal to `min (hard ceiling, FD_SETSIZE)`
— raising *or lowering* it — and performs the `setrlimit` call exactly when
that value differs from the current soft limit (so the limit is left
untouched only when the computed value already equals it). -/
theorem negotiate_fd_limit_sets_min (st : RlimitState) (fd_setsize : Nat)
    (h : st.ok = true) :
    (negotiate_fd_limit st fd_setsize).rlim_cur = min st.rlim_max fd_setsize ∧
    (negotiate_fd_limit st fd_setsize).setrlimitCalls =
      (if min st.rlim_max fd_setsize ≠ st.rlim_cur then 1 else 0) := by
  unfold negotiate_fd_limit
  by_cases he : min st.rlim_max fd_setsize ≠ st.rlim_cur
  · simp [h, he]
  · push_neg at he
    simp [h, he]

theorem negotiate_fd_limit_sets_min_witness :
    (negotiate_fd_limit { ok := true, rlim_cur := 500, rlim_max := 4096 }
        1024).rlim_cur = min 4096 1024 ∧
    (negotiate_fd_limit { ok := true, rlim_cur := 500, rlim_max := 4096 }
        1024).setrlimitCalls = (if min 4096 1024 ≠ 500 then 1 else 0) :=
  negotiate_fd_limit_sets_min { ok := true, rlim_cur := 500, rlim_max := 4096 }
    1024 (by decide)

/-- C8: `tr_fdSocketCreate` refuses — returning no handle and making no OS
`socket` call — whenever the live count has reached the limit, and
increments the count exactly when an OS socket was created; concretely,
with `socket_limit = 2`, three sequential creations yield two successes and
one refusal with no OS socket left dangling, and closing one succeeded
socket allows one more creation to succeed. -/
theorem socket_admission_spec :
    (∀ (st : SockState) (limit : Int) (env : SockEnv),
      ¬ st.peerCount < limit →
      tr_fdSocketCreate st limit env = { s := -1, st := st, osCalls := 0 }) ∧
    (∀ (st : SockState) (limit : Int) (env : SockEnv),
      st.peerCount < limit → 0 ≤ env.socketResult →
      (tr_fdSocketCreate st limit env).s = env.socketResult ∧
      (tr_fdSocketCreate st limit env).st.peerCount = st.peerCount + 1 ∧
      (tr_fdSocketCreate st limit env).st.osOpen = st.osOpen + 1 ∧
      (tr_fdSocketCreate st limit env).osCalls = 1) ∧
    ((tr_fdSocketCreate ⟨0, 0⟩ 2 ⟨5⟩).s = 5 ∧
     (tr_fdSocketCreate (tr_fdSocketCreate ⟨0, 0⟩ 2 ⟨5⟩).st 2 ⟨6⟩).s = 6 ∧
     tr_fdSocketCreate
         (tr_fdSocketCreate (tr_fdSocketCreate ⟨0, 0⟩ 2 ⟨5⟩).st 2 ⟨6⟩).st 2 ⟨7⟩
       = { s := -1, st := ⟨2, 2⟩, osCalls := 0 } ∧
     (tr_fdSocketCreate (tr_fdSocketClose ⟨2, 2⟩ 5) 2 ⟨8⟩).s = 8 ∧
     (tr_fdSocketCreate (tr_fdSocketClose ⟨2, 2⟩ 5) 2 ⟨8⟩).st.peerCount = 2) := by
  refine ⟨?_, ?_, by decide⟩
  · intro st limit env h
    unfold tr_fdSocketCreate
    rw [if_neg h]
  · intro st limit env h hfd
    have hgt : env.socketResult > -1 := by omega
    unfold tr_fdSocketCreate
    rw [if_pos h]
    simp [hgt]

theorem socket_admission_spec_witness :
    tr_fdSocketCreate ⟨3, 3⟩ 2 ⟨11⟩ = { s := -1, st := ⟨3, 3⟩, osCalls := 0 } ∧
    ((tr_fdSocketCreate ⟨1, 1⟩ 2 ⟨11⟩).s = 11 ∧
      (tr_fdSocketCreate ⟨1, 1⟩ 2 ⟨11⟩).st.peerCount = 1 + 1 ∧
      (tr_fdSocketCreate ⟨1, 1⟩ 2 ⟨11⟩).st.osOpen = 1 + 1 ∧
      (tr_fdSocketCreate ⟨1, 1⟩ 2 ⟨11⟩).osCalls = 1) :=
  ⟨socket_admission_spec.1 ⟨3, 3⟩ 2 ⟨11⟩ (by decide),
   socket_admission_spec.2.1 ⟨1, 1⟩ 2 ⟨11⟩ (by decide) (by decide)⟩

/-- C9 counterexample: a deliberate budget refusal (count 2 ≥ limit 2, the
OS would have returned descriptor 9) and an OS-level failure (count 0 <
limit 2, `socket ()` returns -1) produce the *same* result value -1, so a
caller observing only the operation's result cannot distinguish them. -/
theorem socket_refusal_result_indistinguishable :
    (tr_fdSocketCreate ⟨2, 2⟩ 2 ⟨9⟩).s = -1 ∧
    (tr_fdSocketCreate ⟨0, 0⟩ 2 ⟨-1⟩).s = -1 ∧
    (tr_fdSocketCreate ⟨2, 2⟩ 2 ⟨9⟩).s = (tr_fdSocketCreate ⟨0, 0⟩ 2 ⟨-1⟩).s := by
  decide

/-- C9 (amended): both the budget refusal and an OS-level creation failure
return the invalid-handle value -1; the two cases differ only in their side
effects (the refusal makes no OS `socket` call and leaves the state
untouched, the OS failure makes the call), not in the returned result. -/
theorem socket_refusal_vs_os_failure (st : SockState) (limit : Int)
    (env : SockEnv) :
    (¬ st.peerCount < limit →
      (tr_fdSocketCreate st limit env).s = -1 ∧
      (tr_fdSocketCreate st limit env).osCalls = 0 ∧
      (tr_fdSocketCreate st limit env).st = st) ∧
    (st.peerCount < limit → env.socketResult = -1 →
      (tr_fdSocketCreate st limit env).s = -1 ∧
      (tr_fdSocketCreate st limit env).osCalls = 1 ∧
      (tr_fdSocketCreate st limit env).st = st) := by
  constructor
  · intro h
    unfold tr_fdSocketCreate
    rw [if_neg h]
    exact ⟨rfl, rfl, rfl⟩
  · intro h hfd
    unfold tr_fdSocketCreate
    rw [if_pos h]
    simp [hfd]

theorem socket_refusal_vs_os_failure_witness :
    ((tr_fdSocketCreate ⟨2, 2⟩ 2 ⟨9⟩).s = -1 ∧
      (tr_fdSocketCreate ⟨2, 2⟩ 2 ⟨9⟩).osCalls = 0 ∧
      (tr_fdSocketCreate ⟨2, 2⟩ 2 ⟨9⟩).st = ⟨2, 2⟩) ∧
    ((tr_fdSocketCreate ⟨0, 0⟩ 2 ⟨-1⟩).s = -1 ∧
      (tr_fdSocketCreate ⟨0, 0⟩ 2 ⟨-1⟩).osCalls = 1 ∧
      (tr_fdSocketCreate ⟨0, 0⟩ 2 ⟨-1⟩).st = ⟨0, 0⟩) :=
  ⟨(socket_refusal_vs_os_failure ⟨2, 2⟩ 2 ⟨9⟩).1 (by decide),
   (socket_refusal_vs_os_failure ⟨0, 0⟩ 2 ⟨-1⟩).2 (by decide) (by decide)⟩

/-- C1 (code bug): after filling a capacity-2 fileset with identities
(1,0) and (2,0), a checkout of (3,5) evicts the LRU slot 0, opens the new
file successfully (descriptor 12), and then fails at the required truncate
(error 5).  The checkout does return the failure with the underlying error
code — but the aborting path never cleans the slot up: slot 0 is left
holding the *open* descriptor 12 while still carrying its previous
identity (1,0), so a later cached lookup of (1,0) is served descriptor 12,
the descriptor of (3,5)'s file. -/
theorem truncate_failure_leaks_previous_identity :
    leakCheckout.fd = TR_BAD_SYS_FILE ∧
    leakCheckout.errno = 5 ∧
    leakCheckout.set.getD 0 TR_CACHED_FILE_INIT =
      { is_writable := true, fd := 12, torrent_id := 1, file_index := 0,
        used_at := 1 } ∧
    cached_file_is_open (leakCheckout.set.getD 0 TR_CACHED_FILE_INIT) = true ∧
    (tr_fdFileGetCached leakCheckout.set 1 0 false 4).1 = 12 ∧
    (envTruncFail 12 100).newFd = 12 := by decide

/-- C3: for a pre-existing regular file strictly larger than the target
size, `cached_file_open` forces the open to be writable regardless of the
caller's writability request, and on success the file ends at exactly the
target size (the truncate to `file_size` ran on it). -/
theorem cached_file_open_resize_forces_writable (o : tr_cached_file)
    (env : OpenEnv) (w : Bool) (alloc : PreallocMode) (sz cur : Nat)
    (hwf : envWF env) (hd : env.disk = some cur) (hsz : sz < cur) :
    ((cached_file_open o env w alloc sz).openAttempted = true →
      (cached_file_open o env w alloc sz).openedWritable = true) ∧
    ((cached_file_open o env w alloc sz).err = 0 →
      (cached_file_open o env w alloc sz).openedWritable = true ∧
      (cached_file_open o env w alloc sz).disk = some sz) := by
  obtain ⟨mk, dsk, oe, nf, te, fe, se⟩ := env
  obtain ⟨h1, h2, h3⟩ := hwf
  dsimp only at h1 h2 h3 hd
  subst hd
  cases oe with
  | some e =>
    have he : e ≠ 0 := by simpa using h2
    cases w <;> cases mk <;> cases te <;> simp_all [cached_file_open, hsz]
  | none =>
    cases te with
    | some e' =>
      have he' : e' ≠ 0 := by simpa using h3
      cases w <;> cases mk <;> simp_all [cached_file_open, hsz]
    | none =>
      cases w <;> cases mk <;> simp_all [cached_file_open, hsz]

theorem cached_file_open_resize_forces_writable_witness :
    ((cached_file_open TR_CACHED_FILE_INIT (envResize 30 2048) false
        .TR_PREALLOCATE_NONE 1024).openAttempted = true →
      (cached_file_open TR_CACHED_FILE_INIT (envResize 30 2048) false
        .TR_PREALLOCATE_NONE 1024).openedWritable = true) ∧
    ((cached_file_open TR_CACHED_FILE_INIT (envResize 30 2048) false
        .TR_PREALLOCATE_NONE 1024).err = 0 →
      (cached_file_open TR_CACHED_FILE_INIT (envResize 30 2048) false
        .TR_PREALLOCATE_NONE 1024).openedWritable = true ∧
      (cached_file_open TR_CACHED_FILE_INIT (envResize 30 2048) false
        .TR_PREALLOCATE_NONE 1024).disk = some 1024) :=
  cached_file_open_resize_forces_writable TR_CACHED_FILE_INIT
    (envResize 30 2048) false .TR_PREALLOCATE_NONE 1024 2048
    (by decide) (by decide) (by decide)

/-!
## Identity-uniqueness machinery
-/

theorem not_open_fd {o : tr_cached_file}
    (h : cached_file_is_open o = false) : o.fd = TR_BAD_SYS_FILE := by
  unfold cached_file_is_open at h
  simpa using h

/-- Freeing one slot and leaving the rest untouched preserves identity
uniqueness. -/
theorem uniq_of_freed {set set1 : List tr_cached_file} {j : Nat}
    (hU : UniqOpen set) (hlen : set1.length = set.length)
    (hfree : cached_file_is_open (set1.getD j TR_CACHED_FILE_INIT) = false)
    (hsame : ∀ k, k < set.length → k ≠ j →
      set1.getD k TR_CACHED_FILE_INIT = set.getD k TR_CACHED_FILE_INIT) :
    UniqOpen set1 := by
  intro a b ha hb hab hoa hob
  rw [hlen] at ha hb
  by_cases haj : a = j
  · subst haj
    rw [hfree] at hoa
    cases hoa
  · by_cases hbj : b = j
    · subst hbj
      rw [hfree] at hob
      cases hob
    · rw [hsame a ha haj] at hoa ⊢
      rw [hsame b hb hbj] at hob ⊢
      exact hU a b ha hb hab hoa hob

/-- Replacing slot `j` by a slot whose identity clashes with no *other*
open slot preserves identity uniqueness. -/
theorem uniq_update {set : List tr_cached_file} {j : Nat}
    {o3 : tr_cached_file} (hU : UniqOpen set) (hj : j < set.length)
    (hother : cached_file_is_open o3 = true →
      ∀ k, k < set.length → k ≠ j →
        cached_file_is_open (set.getD k TR_CACHED_FILE_INIT) = true →
        (set.getD k TR_CACHED_FILE_INIT).torrent_id = o3.torrent_id →
        (set.getD k TR_CACHED_FILE_INIT).file_index = o3.file_index →
        False) :
    UniqOpen (set.set j o3) := by
  intro a b ha hb hab hoa hob
  rw [List.length_set] at ha hb
  by_cases haj : a = j
  · subst haj
    have hbj : b ≠ a := fun h => hab h.symm
    rw [getD_set_self _ _ _ _ hj] at hoa ⊢
    rw [getD_set_ne _ _ _ _ _ (fun h => hbj h.symm)] at hob ⊢
    by_contra hcon
    push_neg at hcon
    exact hother hoa b hb hbj hob hcon.1.symm hcon.2.symm
  · by_cases hbj : b = j
    · subst hbj
      rw [getD_set_self _ _ _ _ hj] at hob ⊢
      rw [getD_set_ne _ _ _ _ _ (fun h => haj h.symm)] at hoa ⊢
      by_contra hcon
      push_neg at hcon
      exact hother hob a ha haj hoa hcon.1 hcon.2
    · rw [getD_set_ne _ _ _ _ _ (fun h => haj h.symm)] at hoa ⊢
      rw [getD_set_ne _ _ _ _ _ (fun h => hbj h.symm)] at hob ⊢
      exact hU a b ha hb hab hoa hob

/-- A map that either keeps or closes each slot preserves identity
uniqueness. -/
theorem uniq_map_close {set : List tr_cached_file}
    {f : tr_cached_file → tr_cached_file}
    (hf : ∀ o, f o = o ∨ f o = cached_file_close o) (hU : UniqOpen set) :
    UniqOpen (set.map f) := by
  intro a b ha hb hab hoa hob
  rw [List.length_map] at ha hb
  rw [getD_map_lt f set a TR_CACHED_FILE_INIT _ ha] at hoa ⊢
  rw [getD_map_lt f set b TR_CACHED_FILE_INIT _ hb] at hob ⊢
  rcases hf (set.getD a TR_CACHED_FILE_INIT) with hfa | hfa
  · rcases hf (set.getD b TR_CACHED_FILE_INIT) with hfb | hfb
    · rw [hfa] at hoa ⊢
      rw [hfb] at hob ⊢
      exact hU a b ha hb hab hoa hob
    · rw [hfb] at hob
      simp [cached_file_close, cached_file_is_open, TR_BAD_SYS_FILE] at hob
  · rw [hfa] at hoa
    simp [cached_file_close, cached_file_is_open, TR_BAD_SYS_FILE] at hoa

/-- The freshly constructed fileset has no open slot at all. -/
theorem fileset_construct_closed (n k : Nat) :
    cached_file_is_open
      ((fileset_construct n).getD k TR_CACHED_FILE_INIT) = false := by
  induction n generalizing k with
  | zero => rfl
  | succ m ih =>
    cases k with
    | zero => rfl
    | succ k' => simpa [fileset_construct] using ih k'

theorem uniq_construct (n : Nat) : UniqOpen (fileset_construct n) := by
  intro a b _ _ _ hoa _
  rw [fileset_construct_closed] at hoa
  cases hoa

/-!
## Case analysis of the acquisition phase
-/

/-- The acquisition phase either leaves the fileset untouched or frees the
chosen slot and leaves all others untouched. -/
theorem checkout_acquire_cases {set : List tr_cached_file} {tid : Int}
    {i : Nat} {w : Bool} {j : Nat} {set1 : List tr_cached_file} {c : Nat}
    (heq : checkout_acquire set tid i w = some (j, set1, c)) :
    j < set.length ∧ set1.length = set.length ∧
      (set1 = set ∨
        (cached_file_is_open (set1.getD j TR_CACHED_FILE_INIT) = false ∧
          ∀ k, k < set.length → k ≠ j →
            set1.getD k TR_CACHED_FILE_INIT =
              set.getD k TR_CACHED_FILE_INIT)) := by
  unfold checkout_acquire at heq
  split at heq
  next j' hl =>
    have hj' := (fileset_lookup_some hl).1
    split at heq <;> cases heq
    · refine ⟨hj', by simp, Or.inr ⟨?_, ?_⟩⟩
      · rw [getD_set_self _ _ _ _ hj']
        simp [cached_file_close, cached_file_is_open, TR_BAD_SYS_FILE]
      · intro k _ hk
        exact getD_set_ne _ _ _ _ _ (fun hh => hk hh.symm)
    · exact ⟨hj', rfl, Or.inl rfl⟩
  next hl =>
    obtain ⟨h1, h2, h3, h4⟩ := fileset_get_empty_slot_spec heq
    exact ⟨h1, h2, Or.inr ⟨h3, h4⟩⟩

/-- If the slot the acquisition phase picked is (still) open, the phase was
a cache hit that did not close: the fileset is unchanged, the lookup found
exactly this slot, and — when a writable handle was requested — the cached
slot was already writable. -/
theorem checkout_acquire_hit_open {set : List tr_cached_file} {tid : Int}
    {i : Nat} {w : Bool} {j : Nat} {set1 : List tr_cached_file} {c : Nat}
    (heq : checkout_acquire set tid i w = some (j, set1, c))
    (hopen : cached_file_is_open (set1.getD j TR_CACHED_FILE_INIT) = true) :
    set1 = set ∧ fileset_lookup tid i set = some j ∧
      (w = true → (set.getD j TR_CACHED_FILE_INIT).is_writable = true) := by
  unfold checkout_acquire at heq
  split at heq
  next j' hl =>
    have hj' := (fileset_lookup_some hl).1
    split at heq
    next hcond =>
      cases heq
      rw [getD_set_self _ _ _ _ hj'] at hopen
      simp [cached_file_close, cached_file_is_open, TR_BAD_SYS_FILE] at hopen
    next hcond =>
      cases heq
      refine ⟨rfl, hl, fun hw => ?_⟩
      subst hw
      simpa using hcond
  next hl =>
    obtain ⟨_, _, h3, _⟩ := fileset_get_empty_slot_spec heq
    rw [h3] at hopen
    cases hopen

/-- After the acquisition phase, no slot other than the chosen one is open
under the requested identity. -/
theorem checkout_acquire_not_matched {set : List tr_cached_file} {tid : Int}
    {i : Nat} {w : Bool} {j : Nat} {set1 : List tr_cached_file} {c : Nat}
    (hU : UniqOpen set)
    (heq : checkout_acquire set tid i w = some (j, set1, c)) :
    ∀ k, k < set1.length → k ≠ j →
      cached_file_is_open (set1.getD k TR_CACHED_FILE_INIT) = true →
      ¬((set1.getD k TR_CACHED_FILE_INIT).torrent_id = tid ∧
        (set1.getD k TR_CACHED_FILE_INIT).file_index = i) := by
  obtain ⟨hj, hlen, hcases⟩ := checkout_acquire_cases heq
  have hsame : ∀ k, k < set.length → k ≠ j →
      set1.getD k TR_CACHED_FILE_INIT = set.getD k TR_CACHED_FILE_INIT := by
    rcases hcases with rfl | ⟨_, hs⟩
    · exact fun k _ _ => rfl
    · exact hs
  intro k hk hkj hok hid
  rw [hlen] at hk
  rw [hsame k hk hkj] at hok hid
  unfold checkout_acquire at heq
  split at heq
  next j' hl =>
    obtain ⟨hj'len, hm⟩ := fileset_lookup_some hl
    have hjj' : j = j' := by
      split at heq <;> cases heq <;> rfl
    subst hjj'
    obtain ⟨hmt, hmi, hmo⟩ := hm
    have := hU j k hj hk (fun h => hkj h.symm) hmo hok
    rcases this with hne | hne
    · exact hne (by rw [hid.1, ← hmt])
    · exact hne (by rw [hid.2, ← hmi])
  next hl =>
    exact fileset_lookup_none hl k hk ⟨hid.1.symm, hid.2.symm, hok⟩

/-- The acquisition phase preserves identity uniqueness. -/
theorem checkout_acquire_uniq {set : List tr_cached_file} {tid : Int}
    {i : Nat} {w : Bool} {j : Nat} {set1 : List tr_cached_file} {c : Nat}
    (hU : UniqOpen set)
    (heq : checkout_acquire set tid i w = some (j, set1, c)) :
    UniqOpen set1 := by
  obtain ⟨hj, hlen, hcases⟩ := checkout_acquire_cases heq
  rcases hcases with rfl | ⟨hfree, hsame⟩
  · exact hU
  · exact uniq_of_freed hU hlen hfree hsame

/-!
## Characterizations of `cached_file_open`
-/

/-- When none of the directory-creation, open and truncate calls fails,
`cached_file_open` succeeds: error 0, one descriptor opened, the slot
holding the new descriptor, the open performed with writability
`writable OR resize_needed`. -/
theorem cached_file_open_success (o : tr_cached_file) {env : OpenEnv}
    (w : Bool) (alloc : PreallocMode) (sz : Nat)
    (hmk : env.mkdirpErr = none) (hoe : env.openErr = none)
    (hte : env.truncErr = none) :
    (cached_file_open o env w alloc sz).err = 0 ∧
    (cached_file_open o env w alloc sz).opens = 1 ∧
    (cached_file_open o env w alloc sz).slot = { o with fd := env.newFd } ∧
    (cached_file_open o env w alloc sz).openAttempted = true ∧
    (cached_file_open o env w alloc sz).openedWritable =
      (w || (env.disk.isSome && decide (sz < env.disk.getD 0))) := by
  obtain ⟨mk, dsk, oe, nf, te, fe, se⟩ := env
  dsimp only at hmk hoe hte
  subst hmk
  subst hoe
  subst hte
  cases w <;> simp [cached_file_open] <;> split <;> simp

/-- On a *clean* environment, a failing `cached_file_open` that started on
a free slot leaves the slot free: the descriptor is not leaked into it. -/
theorem cached_file_open_clean_slot {o : tr_cached_file} {env : OpenEnv}
    {w : Bool} {alloc : PreallocMode} {sz : Nat}
    (hc : openClean env w sz) (ho : o.fd = TR_BAD_SYS_FILE)
    (he : (cached_file_open o env w alloc sz).err ≠ 0) :
    (cached_file_open o env w alloc sz).slot.fd = TR_BAD_SYS_FILE := by
  obtain ⟨mk, dsk, oe, nf, te, fe, se⟩ := env
  unfold openClean at hc
  dsimp only at hc
  cases oe with
  | some e =>
    cases w <;> cases mk <;> simp_all [cached_file_open] <;> split <;>
      simp_all
  | none =>
    cases dsk with
    | none =>
      cases w <;> cases mk <;> simp_all [cached_file_open] <;> split <;>
        simp_all
    | some cur =>
      by_cases hsz : sz < cur
      · cases te with
        | some e' =>
          cases w <;> cases mk <;> simp_all [cached_file_open, hsz] <;>
            split <;> simp_all
        | none =>
          cases w <;> cases mk <;> simp_all [cached_file_open, hsz] <;>
            split <;> simp_all
      · -- no resize needed: the only failing paths are mkdirp (slot kept,
        -- and it was free) — the open itself succeeds here
        have hdec : decide (sz < cur) = false := by simpa using hsz
        cases w with
        | false => simp [cached_file_open, hdec] at he
        | true =>
          cases mk with
          | none => simp [cached_file_open, hdec] at he
          | some m =>
            by_cases hm : m = 0
            · subst hm
              simp [cached_file_open, hdec] at he
            · simp [cached_file_open, hdec, hm, ho]

/-!
## Computation lemmas for `tr_fdFileCheckout`
-/

theorem checkout_acquire_hit_noclose {set : List tr_cached_file} {tid : Int}
    {i : Nat} (w : Bool) {j : Nat}
    (hj : fileset_lookup tid i set = some j)
    (hcond : (w && !(set.getD j TR_CACHED_FILE_INIT).is_writable) = false) :
    checkout_acquire set tid i w = some (j, set, 0) := by
  unfold checkout_acquire
  rw [hj]
  dsimp only
  rw [hcond]
  simp

theorem checkout_acquire_hit_close {set : List tr_cached_file} {tid : Int}
    {i : Nat} {w : Bool} {j : Nat}
    (hj : fileset_lookup tid i set = some j)
    (hcond : (w && !(set.getD j TR_CACHED_FILE_INIT).is_writable) = true) :
    checkout_acquire set tid i w =
      some (j, set.set j (cached_file_close (set.getD j TR_CACHED_FILE_INIT)), 1) := by
  unfold checkout_acquire
  rw [hj]
  dsimp only
  rw [hcond]
  simp

theorem checkout_acquire_miss {set : List tr_cached_file} {tid : Int}
    {i : Nat} {w : Bool} (hl : fileset_lookup tid i set = none) :
    checkout_acquire set tid i w = fileset_get_empty_slot set := by
  unfold checkout_acquire
  rw [hl]

/-- The serve path: the acquired slot is open, so the checkout just stamps
identity and `used_at` and returns the cached descriptor. -/
theorem checkout_body_serve {set set1 : List tr_cached_file} (env : OpenEnv)
    {tid : Int} {i : Nat} {w : Bool} (alloc : PreallocMode) (sz now : Nat)
    {j c : Nat} (ha : checkout_acquire set tid i w = some (j, set1, c))
    (hopen : cached_file_is_open (set1.getD j TR_CACHED_FILE_INIT) = true) :
    tr_fdFileCheckout set env tid i w alloc sz now =
      { fd := (set1.getD j TR_CACHED_FILE_INIT).fd,
        set := set1.set j ({ set1.getD j TR_CACHED_FILE_INIT with
                             torrent_id := tid, file_index := i,
                             used_at := now }),
        closes := c, opens := 0, openAttempted := false,
        openedWritable := false, errno := 0, disk := env.disk } := by
  unfold tr_fdFileCheckout
  rw [ha]
  dsimp only
  rw [hopen]
  rw [if_pos rfl]

/-- The fresh-open path with a fully succeeding environment. -/
theorem checkout_body_open_ok {set set1 : List tr_cached_file}
    {env : OpenEnv} {tid : Int} {i : Nat} {w : Bool} {alloc : PreallocMode}
    {sz : Nat} (now : Nat) {j c : Nat}
    (ha : checkout_acquire set tid i w = some (j, set1, c))
    (hfree : cached_file_is_open (set1.getD j TR_CACHED_FILE_INIT) = false)
    (hmk : env.mkdirpErr = none) (hoe : env.openErr = none)
    (hte : env.truncErr = none) :
    (tr_fdFileCheckout set env tid i w alloc sz now).errno = 0 ∧
    (tr_fdFileCheckout set env tid i w alloc sz now).fd = env.newFd ∧
    (tr_fdFileCheckout set env tid i w alloc sz now).closes = c ∧
    (tr_fdFileCheckout set env tid i w alloc sz now).opens = 1 ∧
    (tr_fdFileCheckout set env tid i w alloc sz now).openedWritable =
      (w || (env.disk.isSome && decide (sz < env.disk.getD 0))) ∧
    (tr_fdFileCheckout set env tid i w alloc sz now).set =
      set1.set j { is_writable := w, fd := env.newFd, torrent_id := tid,
                   file_index := i, used_at := now } := by
  obtain ⟨he, hop, hsl, hat, how⟩ :=
    cached_file_open_success (set1.getD j TR_CACHED_FILE_INIT)
      w alloc sz hmk hoe hte
  have hne : ¬ (cached_file_open (set1.getD j TR_CACHED_FILE_INIT) env w
      alloc sz).err ≠ 0 := fun hne => hne he
  unfold tr_fdFileCheckout
  rw [ha]
  dsimp only
  rw [hfree]
  rw [if_neg Bool.false_ne_true, if_neg hne]
  simp only [hsl, hop, how]
  exact ⟨trivial, trivial, trivial, trivial, trivial, trivial⟩

/-- The fresh-open path when `cached_file_open` fails: the checkout fails
with that error code, leaving the slot exactly as `cached_file_open` left
it and the identity fields unchanged. -/
theorem checkout_body_open_err {set set1 : List tr_cached_file}
    {env : OpenEnv} {tid : Int} {i : Nat} {w : Bool} {alloc : PreallocMode}
    {sz : Nat} (now : Nat) {j c : Nat}
    (ha : checkout_acquire set tid i w = some (j, set1, c))
    (hfree : cached_file_is_open (set1.getD j TR_CACHED_FILE_INIT) = false)
    (herr : (cached_file_open (set1.getD j TR_CACHED_FILE_INIT) env w alloc
        sz).err ≠ 0) :
    (tr_fdFileCheckout set env tid i w alloc sz now).errno =
      (cached_file_open (set1.getD j TR_CACHED_FILE_INIT) env w alloc sz).err ∧
    (tr_fdFileCheckout set env tid i w alloc sz now).fd = TR_BAD_SYS_FILE ∧
    (tr_fdFileCheckout set env tid i w alloc sz now).set =
      set1.set j
        (cached_file_open (set1.getD j TR_CACHED_FILE_INIT) env w alloc
          sz).slot := by
  unfold tr_fdFileCheckout
  rw [ha]
  dsimp only
  rw [hfree]
  rw [if_neg Bool.false_ne_true, if_pos herr]
  exact ⟨rfl, rfl, rfl⟩

/-- The fresh-open path when `cached_file_open` reports error 0: the slot
is stamped with the caller's writability and the requested identity. -/
theorem checkout_body_open_errzero {set set1 : List tr_cached_file}
    {env : OpenEnv} {tid : Int} {i : Nat} {w : Bool} {alloc : PreallocMode}
    {sz : Nat} (now : Nat) {j c : Nat}
    (ha : checkout_acquire set tid i w = some (j, set1, c))
    (hfree : cached_file_is_open (set1.getD j TR_CACHED_FILE_INIT) = false)
    (he : (cached_file_open (set1.getD j TR_CACHED_FILE_INIT) env w alloc
        sz).err = 0) :
    (tr_fdFileCheckout set env tid i w alloc sz now).errno = 0 ∧
    (tr_fdFileCheckout set env tid i w alloc sz now).fd =
      (cached_file_open (set1.getD j TR_CACHED_FILE_INIT) env w alloc
        sz).slot.fd ∧
    (tr_fdFileCheckout set env tid i w alloc sz now).set =
      set1.set j
        { is_writable := w,
          fd := (cached_file_open (set1.getD j TR_CACHED_FILE_INIT) env w
            alloc sz).slot.fd,
          torrent_id := tid, file_index := i, used_at := now } := by
  have hne : ¬ (cached_file_open (set1.getD j TR_CACHED_FILE_INIT) env w
      alloc sz).err ≠ 0 := fun hne => hne he
  unfold tr_fdFileCheckout
  rw [ha]
  dsimp only
  rw [hfree]
  rw [if_neg Bool.false_ne_true, if_neg hne]
  exact ⟨rfl, rfl, rfl⟩

theorem is_open_of_nonneg {o : tr_cached_file} (h : 0 ≤ o.fd) :
    cached_file_is_open o = true := by
  unfold cached_file_is_open TR_BAD_SYS_FILE
  simp
  omega

/-!
## Preservation of identity uniqueness by every operation
-/

theorem checkout_preserves_uniq {set : List tr_cached_file} {env : OpenEnv}
    {tid : Int} {i : Nat} {w : Bool} {alloc : PreallocMode} {sz now : Nat}
    (hU : UniqOpen set) (hcl : openClean env w sz) :
    UniqOpen (tr_fdFileCheckout set env tid i w alloc sz now).set := by
  cases ha : checkout_acquire set tid i w with
  | none =>
    have hset : (tr_fdFileCheckout set env tid i w alloc sz now).set = set := by
      unfold tr_fdFileCheckout
      rw [ha]
    rw [hset]
    exact hU
  | some x =>
    obtain ⟨j, set1, c⟩ := x
    obtain ⟨hj, hlen, _⟩ := checkout_acquire_cases ha
    have hU1 : UniqOpen set1 := checkout_acquire_uniq hU ha
    have hnm := checkout_acquire_not_matched hU ha
    have hj1 : j < set1.length := by rw [hlen]; exact hj
    by_cases hopen :
        cached_file_is_open (set1.getD j TR_CACHED_FILE_INIT) = true
    · rw [checkout_body_serve env alloc sz now ha hopen]
      apply uniq_update hU1 hj1
      intro _ k hk hkj hok hidt hidi
      exact hnm k hk hkj hok ⟨hidt, hidi⟩
    · have hfree : cached_file_is_open (set1.getD j TR_CACHED_FILE_INIT)
          = false := by simpa using hopen
      by_cases herr : (cached_file_open (set1.getD j TR_CACHED_FILE_INIT)
          env w alloc sz).err = 0
      · obtain ⟨_, _, hset⟩ := checkout_body_open_errzero now
          ha hfree herr
        rw [hset]
        apply uniq_update hU1 hj1
        intro _ k hk hkj hok hidt hidi
        exact hnm k hk hkj hok ⟨hidt, hidi⟩
      · obtain ⟨_, _, hset⟩ := checkout_body_open_err now
          ha hfree herr
        rw [hset]
        apply uniq_update hU1 hj1
        intro hopen' _ _ _ _ _ _
        have hslot := cached_file_open_clean_slot hcl
          (not_open_fd hfree) herr
        rw [cached_file_is_open, hslot] at hopen'
        simp at hopen'

theorem fileClose_preserves_uniq {set : List tr_cached_file} {tid : Int}
    {i : Nat} (hU : UniqOpen set) :
    UniqOpen (tr_fdFileClose set tid i) := by
  unfold tr_fdFileClose
  cases hl : fileset_lookup tid i set with
  | none => exact hU
  | some j =>
    have hj := (fileset_lookup_some hl).1
    apply uniq_update hU hj
    intro hopen _ _ _ _ _ _
    simp [cached_file_close, cached_file_is_open, TR_BAD_SYS_FILE] at hopen

theorem step_preserves_uniq {set : List tr_cached_file} {op : FdOp}
    (hU : UniqOpen set) (hcl : opClean op) : UniqOpen (step set op) := by
  cases op with
  | checkout env tid i w alloc sz now => exact checkout_preserves_uniq hU hcl
  | fileClose tid i => exact fileClose_preserves_uniq hU
  | torrentClose tid =>
    refine uniq_map_close (fun o => ?_) hU
    by_cases h : o.torrent_id = tid ∧ cached_file_is_open o
    · right
      simp [fileset_close_torrent, h]
    · left
      simp [fileset_close_torrent, h]
  | closeAll =>
    refine uniq_map_close (fun o => ?_) hU
    by_cases h : cached_file_is_open o = true
    · right
      simp [fileset_close_all, h]
    · left
      simp [fileset_close_all, h]

theorem run_preserves_uniq {ops : List FdOp} :
    ∀ {set : List tr_cached_file}, (∀ op ∈ ops, opClean op) →
      UniqOpen set → UniqOpen (run set ops) := by
  induction ops with
  | nil => intro set _ hU; exact hU
  | cons op rest ih =>
    intro set hcl hU
    exact ih (fun o ho => hcl o (List.mem_cons_of_mem _ ho))
      (step_preserves_uniq hU (hcl op (List.mem_cons_self _ _)))

/-- Under identity uniqueness, the lookup finds exactly the open slot that
carries the identity. -/
theorem fileset_lookup_of_uniq {set : List tr_cached_file} {tid : Int}
    {i : Nat} (hU : UniqOpen set) {j : Nat} (hj : j < set.length)
    (hm : slotMatches tid i (set.getD j TR_CACHED_FILE_INIT)) :
    fileset_lookup tid i set = some j := by
  cases hl : fileset_lookup tid i set with
  | none => exact absurd hm (fileset_lookup_none hl j hj)
  | some j' =>
    obtain ⟨hj', hm'⟩ := fileset_lookup_some hl
    by_cases hjj : j' = j
    · rw [hjj]
    · exfalso
      obtain ⟨ht, hi, ho⟩ := hm
      obtain ⟨ht', hi', ho'⟩ := hm'
      rcases hU j' j hj' hj hjj ho' ho with hne | hne
      · exact hne (by rw [← ht, ← ht'])
      · exact hne (by rw [← hi, ← hi'])

/-!
## What a successful checkout guarantees
-/

/-- After a successful checkout (error 0, valid descriptor) the fileset has
a unique open slot carrying the requested identity; it holds the returned
descriptor, the lookup finds exactly it, and when a writable handle was
requested the slot is writable. -/
theorem checkout_success_spec {set : List tr_cached_file} {env : OpenEnv}
    {tid : Int} {i : Nat} {w : Bool} {alloc : PreallocMode} {sz now : Nat}
    (hU : UniqOpen set)
    (h0 : (tr_fdFileCheckout set env tid i w alloc sz now).errno = 0)
    (hfd : 0 ≤ (tr_fdFileCheckout set env tid i w alloc sz now).fd) :
    ∃ j, j < (tr_fdFileCheckout set env tid i w alloc sz now).set.length ∧
      UniqOpen (tr_fdFileCheckout set env tid i w alloc sz now).set ∧
      fileset_lookup tid i
        (tr_fdFileCheckout set env tid i w alloc sz now).set = some j ∧
      ((tr_fdFileCheckout set env tid i w alloc sz
          now).set.getD j TR_CACHED_FILE_INIT).fd =
        (tr_fdFileCheckout set env tid i w alloc sz now).fd ∧
      (w = true →
        ((tr_fdFileCheckout set env tid i w alloc sz
            now).set.getD j TR_CACHED_FILE_INIT).is_writable = true) := by
  cases ha : checkout_acquire set tid i w with
  | none =>
    exfalso
    have hset : (tr_fdFileCheckout set env tid i w alloc sz now).fd =
        TR_BAD_SYS_FILE := by
      unfold tr_fdFileCheckout
      rw [ha]
    rw [hset] at hfd
    unfold TR_BAD_SYS_FILE at hfd
    omega
  | some x =>
    obtain ⟨j, set1, c⟩ := x
    obtain ⟨hj, hlen, _⟩ := checkout_acquire_cases ha
    have hU1 : UniqOpen set1 := checkout_acquire_uniq hU ha
    have hnm := checkout_acquire_not_matched hU ha
    have hj1 : j < set1.length := by rw [hlen]; exact hj
    by_cases hopen :
        cached_file_is_open (set1.getD j TR_CACHED_FILE_INIT) = true
    · have hbody := checkout_body_serve env alloc sz now ha hopen
      have hU2 : UniqOpen (tr_fdFileCheckout set env tid i w alloc sz
          now).set := by
        rw [hbody]
        apply uniq_update hU1 hj1
        intro _ k hk hkj hok hidt hidi
        exact hnm k hk hkj hok ⟨hidt, hidi⟩
      refine ⟨j, ?_, hU2, ?_, ?_, ?_⟩
      · rw [hbody]
        simpa using hj1
      · apply fileset_lookup_of_uniq hU2
        · rw [hbody]
          simpa using hj1
        · rw [hbody]
          dsimp only
          rw [getD_set_self _ _ _ _ hj1]
          exact ⟨rfl, rfl, hopen⟩
      · rw [hbody]
        dsimp only
        rw [getD_set_self _ _ _ _ hj1]
      · intro hw
        obtain ⟨_, _, hww⟩ := checkout_acquire_hit_open ha hopen
        rw [hbody]
        dsimp only
        rw [getD_set_self _ _ _ _ hj1]
        have h1 := hww hw
        obtain ⟨hs1, _, _⟩ := checkout_acquire_hit_open ha hopen
        rw [hs1]
        exact h1
    · have hfree : cached_file_is_open (set1.getD j TR_CACHED_FILE_INIT)
          = false := by simpa using hopen
      by_cases herr : (cached_file_open (set1.getD j TR_CACHED_FILE_INIT)
          env w alloc sz).err = 0
      · obtain ⟨_, hfd', hset⟩ := checkout_body_open_errzero now
          ha hfree herr
        have hofd : 0 ≤ (cached_file_open (set1.getD j TR_CACHED_FILE_INIT)
            env w alloc sz).slot.fd := by
          rw [← hfd']
          exact hfd
        have hopen3 : cached_file_is_open
            ({ is_writable := w,
               fd := (cached_file_open (set1.getD j TR_CACHED_FILE_INIT)
                 env w alloc sz).slot.fd,
               torrent_id := tid, file_index := i,
               used_at := now } : tr_cached_file) = true :=
          is_open_of_nonneg hofd
        have hU2 : UniqOpen (tr_fdFileCheckout set env tid i w alloc sz
            now).set := by
          rw [hset]
          apply uniq_update hU1 hj1
          intro _ k hk hkj hok hidt hidi
          exact hnm k hk hkj hok ⟨hidt, hidi⟩
        refine ⟨j, ?_, hU2, ?_, ?_, ?_⟩
        · rw [hset]
          simpa using hj1
        · apply fileset_lookup_of_uniq hU2
          · rw [hset]
            simpa using hj1
          · rw [hset]
            rw [getD_set_self _ _ _ _ hj1]
            exact ⟨rfl, rfl, hopen3⟩
        · rw [hset, hfd']
          rw [getD_set_self _ _ _ _ hj1]
        · intro hw
          rw [hset]
          rw [getD_set_self _ _ _ _ hj1]
          exact hw
      · exfalso
        obtain ⟨herrno, _, _⟩ := checkout_body_open_err now
          ha hfree herr
        rw [herrno] at h0
        exact herr h0

/-- Checking out the same identity twice in a row with the same
writability serves the second checkout from the cache: same descriptor,
no close, no open. -/
theorem checkout_twice {set : List tr_cached_file} {env1 : OpenEnv}
    (env2 : OpenEnv) {tid : Int} {i : Nat} {w : Bool}
    {alloc1 : PreallocMode} (alloc2 : PreallocMode)
    {sz1 : Nat} (sz2 : Nat) {now1 : Nat} (now2 : Nat) (hU : UniqOpen set)
    (h0 : (tr_fdFileCheckout set env1 tid i w alloc1 sz1 now1).errno = 0)
    (hfd : 0 ≤ (tr_fdFileCheckout set env1 tid i w alloc1 sz1 now1).fd) :
    (tr_fdFileCheckout (tr_fdFileCheckout set env1 tid i w alloc1 sz1
        now1).set env2 tid i w alloc2 sz2 now2).fd =
      (tr_fdFileCheckout set env1 tid i w alloc1 sz1 now1).fd ∧
    (tr_fdFileCheckout (tr_fdFileCheckout set env1 tid i w alloc1 sz1
        now1).set env2 tid i w alloc2 sz2 now2).closes = 0 ∧
    (tr_fdFileCheckout (tr_fdFileCheckout set env1 tid i w alloc1 sz1
        now1).set env2 tid i w alloc2 sz2 now2).opens = 0 ∧
    (tr_fdFileCheckout (tr_fdFileCheckout set env1 tid i w alloc1 sz1
        now1).set env2 tid i w alloc2 sz2 now2).errno = 0 := by
  obtain ⟨j, hj, hU2, hl2, hfd2, hww2⟩ := checkout_success_spec hU h0 hfd
  have hcond : (w && !((tr_fdFileCheckout set env1 tid i w alloc1 sz1
      now1).set.getD j TR_CACHED_FILE_INIT).is_writable) = false := by
    cases w with
    | false => rfl
    | true =>
      rw [hww2 rfl]
      rfl
  have ha2 := checkout_acquire_hit_noclose w hl2 hcond
  have hopen2 := (fileset_lookup_some hl2).2.2.2
  rw [checkout_body_serve env2 alloc2 sz2 now2 ha2 hopen2]
  exact ⟨hfd2, rfl, rfl, rfl⟩

/-!
## The writability-upgrade path and the miss path
-/

/-- A writable checkout of an identity whose cached slot is read-only
closes the slot and reopens it writable: exactly one close and one open,
the new descriptor is returned, and the slot ends writable. -/
theorem checkout_upgrade_lemma {set : List tr_cached_file} (env : OpenEnv)
    {tid : Int} {i : Nat} {j : Nat} (alloc : PreallocMode) (sz now : Nat)
    (hj : fileset_lookup tid i set = some j)
    (hro : (set.getD j TR_CACHED_FILE_INIT).is_writable = false)
    (hmk : env.mkdirpErr = none) (hoe : env.openErr = none)
    (hte : env.truncErr = none) :
    (tr_fdFileCheckout set env tid i true alloc sz now).closes = 1 ∧
    (tr_fdFileCheckout set env tid i true alloc sz now).opens = 1 ∧
    (tr_fdFileCheckout set env tid i true alloc sz now).fd = env.newFd ∧
    (tr_fdFileCheckout set env tid i true alloc sz now).errno = 0 ∧
    ((tr_fdFileCheckout set env tid i true alloc sz
        now).set.getD j TR_CACHED_FILE_INIT).is_writable = true := by
  have hj' := (fileset_lookup_some hj).1
  have hcond : (true && !(set.getD j TR_CACHED_FILE_INIT).is_writable)
      = true := by rw [hro]; rfl
  have ha := checkout_acquire_hit_close hj hcond
  have hj1 : j < (set.set j
      (cached_file_close (set.getD j TR_CACHED_FILE_INIT))).length := by
    simpa using hj'
  have hfree : cached_file_is_open
      ((set.set j (cached_file_close (set.getD j
        TR_CACHED_FILE_INIT))).getD j TR_CACHED_FILE_INIT) = false := by
    rw [getD_set_self _ _ _ _ hj']
    simp [cached_file_close, cached_file_is_open, TR_BAD_SYS_FILE]
  obtain ⟨h1, h2, h3, h4, _, h6⟩ := checkout_body_open_ok now
    ha hfree hmk hoe hte
  refine ⟨h3, h4, h2, h1, ?_⟩
  rw [h6, getD_set_self _ _ _ _ hj1]

/-- When no free slot scan is needed: `fileset_get_empty_slot` returns the
first free slot without closing anything. -/
theorem fileset_get_empty_slot_of_first_free {set : List tr_cached_file}
    {j : Nat} (hff : first_free set = some j) :
    fileset_get_empty_slot set = some (j, set, 0) := by
  have hj' := (first_free_some hff).1
  have hne : ¬ set.isEmpty = true := by
    intro hh
    rw [List.isEmpty_iff] at hh
    rw [hh] at hj'
    simp at hj'
  unfold fileset_get_empty_slot
  rw [if_neg hne, hff]

/-- C4: the fileset is constructed with a fixed capacity (default
`FILE_CACHE_SIZE = 32`) and no sequence of operations ever changes it or
holds more open handles than it; when no slot has an absent descriptor,
the checkout path first closes the open slot with the smallest `last_used`
timestamp and reuses it in place, so eviction never grows the set. -/
theorem fileset_capacity_invariant :
    FILE_CACHE_SIZE = 32 ∧
    (∀ (n : Nat) (ops : List FdOp),
      (run (fileset_construct n) ops).length = n ∧
      openCount (run (fileset_construct n) ops) ≤ n) ∧
    (∀ set : List tr_cached_file, set ≠ [] →
      (∀ k, k < set.length →
        cached_file_is_open (set.getD k TR_CACHED_FILE_INIT) = true) →
      ∃ j, fileset_get_empty_slot set =
          some (j, set.set j
            (cached_file_close (set.getD j TR_CACHED_FILE_INIT)), 1) ∧
        j < set.length ∧
        ∀ k, k < set.length →
          (set.getD j TR_CACHED_FILE_INIT).used_at
            ≤ (set.getD k TR_CACHED_FILE_INIT).used_at) := by
  refine ⟨rfl, ?_, ?_⟩
  · intro n ops
    have hlen : (run (fileset_construct n) ops).length = n := by
      rw [run_length]
      simp [fileset_construct]
    refine ⟨hlen, ?_⟩
    calc openCount (run (fileset_construct n) ops)
        ≤ (run (fileset_construct n) ops).length := openCount_le_length _
      _ = n := hlen
  · intro set hne hall
    exact fileset_get_empty_slot_lru hne hall

theorem fileset_capacity_invariant_witness :
    ((run (fileset_construct 32) dupTrace).length = 32 ∧
      openCount (run (fileset_construct 32) dupTrace) ≤ 32) ∧
    (∃ j, fileset_get_empty_slot leakSet =
        some (j, leakSet.set j
          (cached_file_close (leakSet.getD j TR_CACHED_FILE_INIT)), 1) ∧
      j < leakSet.length ∧
      ∀ k, k < leakSet.length →
        (leakSet.getD j TR_CACHED_FILE_INIT).used_at
          ≤ (leakSet.getD k TR_CACHED_FILE_INIT).used_at) :=
  ⟨fileset_capacity_invariant.2.1 32 dupTrace,
   fileset_capacity_invariant.2.2 leakSet (by decide) (by decide)⟩

/-- C5 counterexample: on a capacity-2 fileset, the trace `dupTrace` — six
operations whose last checkout fails at the truncate step after its open
succeeded — ends with *two* open slots both carrying the identity (1,0):
identity uniqueness is violated by the truncate-failure leak. -/
theorem truncate_failure_duplicates_identity :
    (run (fileset_construct 2) dupTrace).countP
      (fun o => cached_file_is_open o && (o.torrent_id == 1) &&
        (o.file_index == 0)) = 2 ∧
    ¬ UniqOpen (run (fileset_construct 2) dupTrace) := by
  constructor
  · decide
  · intro h
    have hd := h 0 1 (by decide) (by decide) (by decide) (by decide)
      (by decide)
    rcases hd with hne | hne <;> exact hne (by decide)

/-- C5 (amended): in every trace whose checkouts use clean environments —
none fails at the truncate step after its open succeeded — at most one
open slot carries any given (owner, member) identity at any time, and
checking out the same identity twice in a row with the same writability
returns the same descriptor the second time, with no close and no
reopen. -/
theorem identity_uniqueness_of_clean_traces (n : Nat) (ops : List FdOp)
    (hcl : ∀ op ∈ ops, opClean op) :
    UniqOpen (run (fileset_construct n) ops) ∧
    (∀ (env1 env2 : OpenEnv) (tid : Int) (i : Nat) (w : Bool)
      (alloc1 alloc2 : PreallocMode) (sz1 sz2 now1 now2 : Nat),
      (tr_fdFileCheckout (run (fileset_construct n) ops) env1 tid i w
        alloc1 sz1 now1).errno = 0 →
      0 ≤ (tr_fdFileCheckout (run (fileset_construct n) ops) env1 tid i w
        alloc1 sz1 now1).fd →
      (tr_fdFileCheckout (tr_fdFileCheckout (run (fileset_construct n)
          ops) env1 tid i w alloc1 sz1 now1).set env2 tid i w alloc2 sz2
          now2).fd =
        (tr_fdFileCheckout (run (fileset_construct n) ops) env1 tid i w
          alloc1 sz1 now1).fd ∧
      (tr_fdFileCheckout (tr_fdFileCheckout (run (fileset_construct n)
          ops) env1 tid i w alloc1 sz1 now1).set env2 tid i w alloc2 sz2
          now2).closes = 0 ∧
      (tr_fdFileCheckout (tr_fdFileCheckout (run (fileset_construct n)
          ops) env1 tid i w alloc1 sz1 now1).set env2 tid i w alloc2 sz2
          now2).opens = 0) := by
  have hU := run_preserves_uniq hcl (uniq_construct n)
  refine ⟨hU, ?_⟩
  intro env1 env2 tid i w alloc1 alloc2 sz1 sz2 now1 now2 h0 hfd
  obtain ⟨h1, h2, h3, _⟩ := checkout_twice env2 alloc2 sz2 now2 hU h0 hfd
  exact ⟨h1, h2, h3⟩

theorem identity_uniqueness_of_clean_traces_witness :
    UniqOpen (run (fileset_construct 2) leakPrefix) ∧
    ((tr_fdFileCheckout (tr_fdFileCheckout (run (fileset_construct 2)
        leakPrefix) (envResize 20 100) 3 0 true .TR_PREALLOCATE_NONE 100
        5).set (envNew 21) 3 0 true .TR_PREALLOCATE_NONE 100 6).fd =
      (tr_fdFileCheckout (run (fileset_construct 2) leakPrefix)
        (envResize 20 100) 3 0 true .TR_PREALLOCATE_NONE 100 5).fd ∧
     (tr_fdFileCheckout (tr_fdFileCheckout (run (fileset_construct 2)
        leakPrefix) (envResize 20 100) 3 0 true .TR_PREALLOCATE_NONE 100
        5).set (envNew 21) 3 0 true .TR_PREALLOCATE_NONE 100 6).closes = 0 ∧
     (tr_fdFileCheckout (tr_fdFileCheckout (run (fileset_construct 2)
        leakPrefix) (envResize 20 100) 3 0 true .TR_PREALLOCATE_NONE 100
        5).set (envNew 21) 3 0 true .TR_PREALLOCATE_NONE 100 6).opens = 0) :=
  ⟨(identity_uniqueness_of_clean_traces 2 leakPrefix (by decide)).1,
   (identity_uniqueness_of_clean_traces 2 leakPrefix (by decide)).2
     (envResize 20 100) (envNew 21) 3 0 true .TR_PREALLOCATE_NONE
     .TR_PREALLOCATE_NONE 100 100 5 6 (by decide) (by decide)⟩

/-- C6: when the cached slot matching an identity is read-only and a
writable checkout arrives, the slot is closed and reopened writable —
exactly one close and one open, the new descriptor is returned, and the
slot ends writable (never silently serving a narrower handle); conversely
a read-only checkout of an identity whose cached slot is writable serves
the cached descriptor with no close and no open. -/
theorem checkout_writability_upgrade (set : List tr_cached_file)
    (env : OpenEnv) (tid : Int) (i : Nat) (j : Nat) (alloc : PreallocMode)
    (sz now : Nat) (hj : fileset_lookup tid i set = some j) :
    ((set.getD j TR_CACHED_FILE_INIT).is_writable = false →
      env.mkdirpErr = none → env.openErr = none → env.truncErr = none →
      (tr_fdFileCheckout set env tid i true alloc sz now).closes = 1 ∧
      (tr_fdFileCheckout set env tid i true alloc sz now).opens = 1 ∧
      (tr_fdFileCheckout set env tid i true alloc sz now).fd = env.newFd ∧
      (tr_fdFileCheckout set env tid i true alloc sz now).errno = 0 ∧
      ((tr_fdFileCheckout set env tid i true alloc sz
          now).set.getD j TR_CACHED_FILE_INIT).is_writable = true) ∧
    ((set.getD j TR_CACHED_FILE_INIT).is_writable = true →
      (tr_fdFileCheckout set env tid i false alloc sz now).closes = 0 ∧
      (tr_fdFileCheckout set env tid i false alloc sz now).opens = 0 ∧
      (tr_fdFileCheckout set env tid i false alloc sz now).fd =
        (set.getD j TR_CACHED_FILE_INIT).fd ∧
      (tr_fdFileCheckout set env tid i false alloc sz now).errno = 0) := by
  constructor
  · intro hro hmk hoe hte
    exact checkout_upgrade_lemma env alloc sz now hj hro hmk hoe hte
  · intro _
    have hcond : (false && !(set.getD j
        TR_CACHED_FILE_INIT).is_writable) = false := rfl
    have ha := checkout_acquire_hit_noclose false hj hcond
    have hopen := (fileset_lookup_some hj).2.2.2
    rw [checkout_body_serve env alloc sz now ha hopen]
    exact ⟨rfl, rfl, rfl, rfl⟩

theorem checkout_writability_upgrade_witness :
    ((tr_fdFileCheckout c10set (envNew 21) 1 0 true .TR_PREALLOCATE_NONE
        1024 7).closes = 1 ∧
      (tr_fdFileCheckout c10set (envNew 21) 1 0 true .TR_PREALLOCATE_NONE
        1024 7).opens = 1 ∧
      (tr_fdFileCheckout c10set (envNew 21) 1 0 true .TR_PREALLOCATE_NONE
        1024 7).fd = (envNew 21).newFd ∧
      (tr_fdFileCheckout c10set (envNew 21) 1 0 true .TR_PREALLOCATE_NONE
        1024 7).errno = 0 ∧
      ((tr_fdFileCheckout c10set (envNew 21) 1 0 true .TR_PREALLOCATE_NONE
        1024 7).set.getD 0 TR_CACHED_FILE_INIT).is_writable = true) ∧
    ((tr_fdFileCheckout leakSet (envNew 22) 1 0 false .TR_PREALLOCATE_NONE
        100 8).closes = 0 ∧
      (tr_fdFileCheckout leakSet (envNew 22) 1 0 false .TR_PREALLOCATE_NONE
        100 8).opens = 0 ∧
      (tr_fdFileCheckout leakSet (envNew 22) 1 0 false .TR_PREALLOCATE_NONE
        100 8).fd = (leakSet.getD 0 TR_CACHED_FILE_INIT).fd ∧
      (tr_fdFileCheckout leakSet (envNew 22) 1 0 false .TR_PREALLOCATE_NONE
        100 8).errno = 0) :=
  ⟨(checkout_writability_upgrade c10set (envNew 21) 1 0 0
      .TR_PREALLOCATE_NONE 1024 7 (by decide)).1 (by decide) (by decide)
      (by decide) (by decide),
   (checkout_writability_upgrade leakSet (envNew 22) 1 0 0
      .TR_PREALLOCATE_NONE 100 8 (by decide)).2 (by decide)⟩

/-- C10: when a read-only checkout is forced writable solely because a
resize was needed (the target file pre-exists larger than the target
size), the open is performed writable, but the slot records the *caller's*
requested writability (read-only); a subsequent writable `peek_cached`
on that identity returns absent, and a subsequent writable checkout closes
and reopens the handle even though the cached descriptor was in fact
opened writable. -/
theorem checkout_records_requested_writability
    (set : List tr_cached_file) (env1 env2 : OpenEnv) (tid : Int)
    (i j : Nat) (alloc1 alloc2 : PreallocMode) (sz sz2 cur : Nat)
    (now1 now2 now3 : Nat)
    (hl : fileset_lookup tid i set = none)
    (hff : first_free set = some j)
    (hmk1 : env1.mkdirpErr = none) (hoe1 : env1.openErr = none)
    (hte1 : env1.truncErr = none) (hdisk : env1.disk = some cur)
    (hsz : sz < cur) (hnf : 0 ≤ env1.newFd)
    (hmk2 : env2.mkdirpErr = none) (hoe2 : env2.openErr = none)
    (hte2 : env2.truncErr = none) :
    (tr_fdFileCheckout set env1 tid i false alloc1 sz now1).errno = 0 ∧
    (tr_fdFileCheckout set env1 tid i false alloc1 sz
      now1).openedWritable = true ∧
    ((tr_fdFileCheckout set env1 tid i false alloc1 sz
      now1).set.getD j TR_CACHED_FILE_INIT).is_writable = false ∧
    (tr_fdFileGetCached (tr_fdFileCheckout set env1 tid i false alloc1 sz
      now1).set tid i true now2).1 = TR_BAD_SYS_FILE ∧
    (tr_fdFileCheckout (tr_fdFileCheckout set env1 tid i false alloc1 sz
      now1).set env2 tid i true alloc2 sz2 now3).closes = 1 ∧
    (tr_fdFileCheckout (tr_fdFileCheckout set env1 tid i false alloc1 sz
      now1).set env2 tid i true alloc2 sz2 now3).opens = 1 := by
  have hj' := (first_free_some hff).1
  have ha : checkout_acquire set tid i false = some (j, set, 0) := by
    rw [checkout_acquire_miss hl, fileset_get_empty_slot_of_first_free hff]
  have hfree := (first_free_some hff).2
  obtain ⟨h1, h2, h3, h4, h5, h6⟩ := checkout_body_open_ok now1
    ha hfree hmk1 hoe1 hte1
  have how : (tr_fdFileCheckout set env1 tid i false alloc1 sz
      now1).openedWritable = true := by
    rw [h5, hdisk]
    simp [hsz]
  have hslot : (tr_fdFileCheckout set env1 tid i false alloc1 sz
      now1).set.getD j TR_CACHED_FILE_INIT =
      { is_writable := false, fd := env1.newFd, torrent_id := tid,
        file_index := i, used_at := now1 } := by
    rw [h6, getD_set_self _ _ _ _ hj']
  have hmatch : slotMatches tid i
      ({ is_writable := false, fd := env1.newFd, torrent_id := tid,
         file_index := i, used_at := now1 } : tr_cached_file) :=
    ⟨rfl, rfl, is_open_of_nonneg hnf⟩
  have hl2 : fileset_lookup tid i (tr_fdFileCheckout set env1 tid i false
      alloc1 sz now1).set = some j := by
    rw [h6]
    exact fileset_lookup_set_self hl hj' hmatch
  have hgc : (tr_fdFileGetCached (tr_fdFileCheckout set env1 tid i false
      alloc1 sz now1).set tid i true now2).1 = TR_BAD_SYS_FILE := by
    unfold tr_fdFileGetCached
    rw [hl2]
    dsimp only
    rw [hslot]
    rfl
  obtain ⟨g1, g2, _, _, _⟩ := checkout_upgrade_lemma env2 alloc2 sz2 now3
    hl2 (by rw [hslot]) hmk2 hoe2 hte2
  exact ⟨h1, how, by rw [hslot], hgc, g1, g2⟩

theorem checkout_records_requested_writability_witness :
    (tr_fdFileCheckout (fileset_construct 2) (envResize 20 2048) 1 0 false
      .TR_PREALLOCATE_NONE 1024 1).errno = 0 ∧
    (tr_fdFileCheckout (fileset_construct 2) (envResize 20 2048) 1 0 false
      .TR_PREALLOCATE_NONE 1024 1).openedWritable = true ∧
    ((tr_fdFileCheckout (fileset_construct 2) (envResize 20 2048) 1 0 false
      .TR_PREALLOCATE_NONE 1024 1).set.getD 0
        TR_CACHED_FILE_INIT).is_writable = false ∧
    (tr_fdFileGetCached (tr_fdFileCheckout (fileset_construct 2)
      (envResize 20 2048) 1 0 false .TR_PREALLOCATE_NONE 1024 1).set 1 0
      true 2).1 = TR_BAD_SYS_FILE ∧
    (tr_fdFileCheckout (tr_fdFileCheckout (fileset_construct 2)
      (envResize 20 2048) 1 0 false .TR_PREALLOCATE_NONE 1024 1).set
      (envNew 21) 1 0 true .TR_PREALLOCATE_NONE 1024 3).closes = 1 ∧
    (tr_fdFileCheckout (tr_fdFileCheckout (fileset_construct 2)
      (envResize 20 2048) 1 0 false .TR_PREALLOCATE_NONE 1024 1).set
      (envNew 21) 1 0 true .TR_PREALLOCATE_NONE 1024 3).opens = 1 :=
  checkout_records_requested_writability (fileset_construct 2)
    (envResize 20 2048) (envNew 21) 1 0 0 .TR_PREALLOCATE_NONE
    .TR_PREALLOCATE_NONE 1024 1024 2048 1 2 3 (by decide) (by decide)
    (by decide) (by decide) (by decide) (by decide) (by decide) (by decide)
    (by decide) (by decide) (by decide)

end Fdlimit
